import Mathlib

/-!
Verification development for the pyChecco dynamic-slicing core.

The definitions below are a shallow embedding of the Python sources under
`pyChecco/`.  Python `int` is modelled as `Int` (or `Nat` for opcodes),
Python `str` as `String`, Python sets as `Finset` (their iteration order is
never observable in the modelled code paths), Python lists as `List`, and
raised exceptions as `Except` error values.  Stacks are modelled with the
top element at the HEAD of a `List` (Python appends at the end); this is a
pure orientation change.  Each definition cites the file and function it
embeds.
-/

deriving instance DecidableEq for Except

namespace PyChecco

/-! ## Opcode constants, from `pyChecco/utils/opcodes.py`. -/

def POP_TOP : Nat := 1
def ROT_TWO : Nat := 2
def ROT_THREE : Nat := 3
def DUP_TOP : Nat := 4
def DUP_TOP_TWO : Nat := 5
def ROT_FOUR : Nat := 6
def NOP : Nat := 9
def UNARY_POSITIVE : Nat := 10
def UNARY_NEGATIVE : Nat := 11
def UNARY_NOT : Nat := 12
def UNARY_INVERT : Nat := 15
def BINARY_MATRIX_MULTIPLY : Nat := 16
def INPLACE_MATRIX_MULTIPLY : Nat := 17
def BINARY_POWER : Nat := 19
def BINARY_MULTIPLY : Nat := 20
def BINARY_MODULO : Nat := 22
def BINARY_ADD : Nat := 23
def BINARY_SUBTRACT : Nat := 24
def BINARY_SUBSCR : Nat := 25
def BINARY_FLOOR_DIVIDE : Nat := 26
def BINARY_TRUE_DIVIDE : Nat := 27
def INPLACE_FLOOR_DIVIDE : Nat := 28
def INPLACE_TRUE_DIVIDE : Nat := 29
def GET_AITER : Nat := 50
def GET_ANEXT : Nat := 51
def BEFORE_ASYNC_WITH : Nat := 52
def BEGIN_FINALLY : Nat := 53
def END_ASYNC_FOR : Nat := 54
def INPLACE_ADD : Nat := 55
def INPLACE_SUBTRACT : Nat := 56
def INPLACE_MULTIPLY : Nat := 57
def INPLACE_MODULO : Nat := 59
def STORE_SUBSCR : Nat := 60
def DELETE_SUBSCR : Nat := 61
def BINARY_LSHIFT : Nat := 62
def BINARY_RSHIFT : Nat := 63
def BINARY_AND : Nat := 64
def BINARY_XOR : Nat := 65
def BINARY_OR : Nat := 66
def INPLACE_POWER : Nat := 67
def GET_ITER : Nat := 68
def GET_YIELD_FROM_ITER : Nat := 69
def PRINT_EXPR : Nat := 70
def LOAD_BUILD_CLASS : Nat := 71
def YIELD_FROM : Nat := 72
def GET_AWAITABLE : Nat := 73
def INPLACE_LSHIFT : Nat := 75
def INPLACE_RSHIFT : Nat := 76
def INPLACE_AND : Nat := 77
def INPLACE_XOR : Nat := 78
def INPLACE_OR : Nat := 79
def WITH_CLEANUP_START : Nat := 81
def WITH_CLEANUP_FINISH : Nat := 82
def RETURN_VALUE : Nat := 83
def IMPORT_STAR : Nat := 84
/-- `SETUP_ANNOTATIONS` in `opcodes.py` (shortened name). -/
def SETUP_ANNOT : Nat := 85
def YIELD_VALUE : Nat := 86
def POP_BLOCK : Nat := 87
def END_FINALLY : Nat := 88
def POP_EXCEPT : Nat := 89
def STORE_NAME : Nat := 90
def DELETE_NAME : Nat := 91
def UNPACK_SEQUENCE : Nat := 92
def FOR_ITER : Nat := 93
def UNPACK_EX : Nat := 94
def STORE_ATTR : Nat := 95
def DELETE_ATTR : Nat := 96
def STORE_GLOBAL : Nat := 97
def DELETE_GLOBAL : Nat := 98
def LOAD_CONST : Nat := 100
def LOAD_NAME : Nat := 101
def BUILD_TUPLE : Nat := 102
def BUILD_LIST : Nat := 103
def BUILD_SET : Nat := 104
def BUILD_MAP : Nat := 105
def LOAD_ATTR : Nat := 106
def COMPARE_OP : Nat := 107
def IMPORT_NAME : Nat := 108
def IMPORT_FROM : Nat := 109
def JUMP_FORWARD : Nat := 110
def JUMP_IF_FALSE_OR_POP : Nat := 111
def JUMP_IF_TRUE_OR_POP : Nat := 112
def JUMP_ABSOLUTE : Nat := 113
def POP_JUMP_IF_FALSE : Nat := 114
def POP_JUMP_IF_TRUE : Nat := 115
def LOAD_GLOBAL : Nat := 116
def SETUP_FINALLY : Nat := 122
def LOAD_FAST : Nat := 124
def STORE_FAST : Nat := 125
def DELETE_FAST : Nat := 126
def RAISE_VARARGS : Nat := 130
def CALL_FUNCTION : Nat := 131
def MAKE_FUNCTION : Nat := 132
def BUILD_SLICE : Nat := 133
def LOAD_CLOSURE : Nat := 135
def LOAD_DEREF : Nat := 136
def STORE_DEREF : Nat := 137
def DELETE_DEREF : Nat := 138
def CALL_FUNCTION_KW : Nat := 141
def CALL_FUNCTION_EX : Nat := 142
def SETUP_WITH : Nat := 143
def EXTENDED_ARG : Nat := 144
def LIST_APPEND : Nat := 145
def SET_ADD : Nat := 146
def MAP_ADD : Nat := 147
def LOAD_CLASSDEREF : Nat := 148
def BUILD_LIST_UNPACK : Nat := 149
def BUILD_MAP_UNPACK : Nat := 150
def BUILD_MAP_UNPACK_WITH_CALL : Nat := 151
def BUILD_TUPLE_UNPACK : Nat := 152
def BUILD_SET_UNPACK : Nat := 153
def SETUP_ASYNC_WITH : Nat := 154
def FORMAT_VALUE : Nat := 155
def BUILD_CONST_KEY_MAP : Nat := 156
def BUILD_STRING : Nat := 157
def BUILD_TUPLE_UNPACK_WITH_CALL : Nat := 158
def LOAD_METHOD : Nat := 160
def CALL_METHOD : Nat := 161
def CALL_FINALLY : Nat := 162
def POP_FINALLY : Nat := 163

/-! ## Instruction model, from `pyChecco/slicer/instruction.py` and the
`bytecode` library (`Instr`). -/

/-- A Python instruction argument: `None`, an `int`, or a `str`
(the only argument shapes the sliced code paths put into `Instr.arg`). -/
inductive PyArg where
  | noneV : PyArg
  | intV : Int → PyArg
  | strV : String → PyArg
deriving DecidableEq

/-- A `bytecode.Instr` as far as the slicer reads it: opcode, argument and
line number.  The library stores the `name`; `name` and `opcode` determine
each other through Python's `opname`/`opmap` tables (a bijection on defined
opcodes), so we carry the numeric `opcode` only. -/
structure PyInstr where
  opcode : Nat
  arg : PyArg
  lineno : Int
deriving DecidableEq

/-- `UniqueInstruction` (`slicer/instruction.py`, lines 39-95): an
instruction plus its location coordinates, the information looked up in the
disassembly (`dis_arg`, `is_jump_target`) and the mutable `_in_slice` flag.
The class does NOT define `__eq__`; it inherits it from `bytecode.Instr`. -/
structure UniqueInstruction where
  file : String
  opcode : Nat
  arg : PyArg
  lineno : Int
  code_object_id : Int
  node_id : Int
  offset : Int
  dis_arg : Option Int
  is_jump_target : Bool
  inSliceFlag : Bool
deriving DecidableEq

namespace UniqueInstruction

/-- The key compared by the inherited `bytecode.Instr.__eq__`
(`Instr._cmp_key` returns `(lineno, name, arg)`; `name` equality coincides
with `opcode` equality through `opname`). -/
def eqKey (i : UniqueInstruction) : Int × Nat × PyArg :=
  (i.lineno, i.opcode, i.arg)

/-- The tuple hashed by `UniqueInstruction.__hash__`
(`slicer/instruction.py`, lines 93-94): `(name, code_object_id, node_id,
offset)`; again `name` stands for `opcode`. -/
def hashKey (i : UniqueInstruction) : Nat × Int × Int × Int :=
  (i.opcode, i.code_object_id, i.node_id, i.offset)

/-- The tuple the spec claims is both the equality notion and the hash key:
`(opcode, code_object_id, basic_block_id, offset)`. -/
def claimedKey (i : UniqueInstruction) : Nat × Int × Int × Int :=
  (i.opcode, i.code_object_id, i.node_id, i.offset)

/-- Python `a == b` on two `UniqueInstruction`s: the inherited
`Instr.__eq__`, comparing `_cmp_key` tuples. -/
def pyEq (a b : UniqueInstruction) : Bool :=
  a.eqKey = b.eqKey

/-- Identity inside a Python `set`/`dict` of `UniqueInstruction`s: members
collide exactly when they land in the same hash bucket AND compare `==`
(ignoring accidental integer-hash collisions between distinct key tuples,
which can only merge further elements and are the standard idealisation). -/
def setIdent (a b : UniqueInstruction) : Bool :=
  pyEq a b && a.hashKey = b.hashKey

theorem setIdent_refl (a : UniqueInstruction) : setIdent a a = true := by
  simp [setIdent, pyEq]

theorem setIdent_symm {a b : UniqueInstruction} (h : setIdent a b = true) :
    setIdent b a = true := by
  simp only [setIdent, pyEq, Bool.and_eq_true, decide_eq_true_eq] at h ⊢
  exact ⟨h.1.symm, h.2.symm⟩

theorem setIdent_trans {a b c : UniqueInstruction} (h₁ : setIdent a b = true)
    (h₂ : setIdent b c = true) : setIdent a c = true := by
  simp only [setIdent, pyEq, Bool.and_eq_true, decide_eq_true_eq] at h₁ h₂ ⊢
  exact ⟨h₁.1.trans h₂.1, h₁.2.trans h₂.2⟩

/-- `in_slice()` accessor (the `_in_slice` flag). -/
def in_slice (i : UniqueInstruction) : Bool := i.inSliceFlag

/-- `set_in_slice` (returns the updated record; Python mutates in place). -/
def set_in_slice (i : UniqueInstruction) : UniqueInstruction :=
  { i with inSliceFlag := true }

end UniqueInstruction

/-- `MEMORY_USE_INSTRUCTIONS` (`slicer/instruction.py`, lines 27-28). -/
def MEMORY_USE_INSTRUCTIONS : List Nat :=
  [LOAD_FAST, LOAD_NAME, LOAD_GLOBAL, LOAD_ATTR, LOAD_DEREF, BINARY_SUBSCR,
   LOAD_METHOD, IMPORT_FROM, LOAD_CLOSURE, LOAD_CLASSDEREF]

/-- `MEMORY_DEF_INSTRUCTIONS` (`slicer/instruction.py`, lines 29-32). -/
def MEMORY_DEF_INSTRUCTIONS : List Nat :=
  [STORE_FAST, STORE_NAME, STORE_GLOBAL, STORE_DEREF, STORE_ATTR, STORE_SUBSCR,
   BINARY_SUBSCR,
   DELETE_FAST, DELETE_NAME, DELETE_GLOBAL, DELETE_ATTR, DELETE_SUBSCR, DELETE_DEREF,
   IMPORT_NAME]

/-- `COND_BRANCH_INSTRUCTIONS` (`slicer/instruction.py`, lines 33-34). -/
def COND_BRANCH_INSTRUCTIONS : List Nat :=
  [POP_JUMP_IF_TRUE, POP_JUMP_IF_FALSE, JUMP_IF_TRUE_OR_POP, JUMP_IF_FALSE_OR_POP,
   FOR_ITER]

/-- `UniqueInstruction.is_def` (`instruction.py`, lines 70-71). -/
def UniqueInstruction.is_def (i : UniqueInstruction) : Bool :=
  i.opcode ∈ MEMORY_DEF_INSTRUCTIONS

/-- `UniqueInstruction.is_use` (`instruction.py`, lines 73-74). -/
def UniqueInstruction.is_use (i : UniqueInstruction) : Bool :=
  i.opcode ∈ MEMORY_USE_INSTRUCTIONS

/-- `UniqueInstruction.is_cond_branch` (`instruction.py`, lines 76-77). -/
def UniqueInstruction.is_cond_branch (i : UniqueInstruction) : Bool :=
  i.opcode ∈ COND_BRANCH_INSTRUCTIONS

/-- `Instr.is_uncond_jump` from the `bytecode` library: the name is one of
`JUMP_FORWARD`, `JUMP_ABSOLUTE` (Python 3.8 unconditional jumps). -/
def isUncondJump (opcode : Nat) : Bool :=
  opcode = JUMP_FORWARD || opcode = JUMP_ABSOLUTE

/-! ## Python helpers: `hex`, list indexing, set-based de-duplication. -/

/-- Hex digits of a natural number, most significant first, lowercase
(the digit string Python's `hex` produces after `0x`). -/
def hexDigitsAux : Nat → Nat → List Char
  | 0, _ => []
  | fuel + 1, n =>
    if n < 16 then [Nat.digitChar n]
    else hexDigitsAux fuel (n / 16) ++ [Nat.digitChar (n % 16)]

def hexDigits (n : Nat) : List Char := hexDigitsAux (n + 1) n

/-- Python `hex(i)`: `"0x…"` for `i ≥ 0`, `"-0x…"` for `i < 0`. -/
def pyHex (i : Int) : String :=
  if i < 0 then "-0x" ++ String.mk (hexDigits i.natAbs)
  else "0x" ++ String.mk (hexDigits i.toNat)

/-- Python list indexing `l[i]` with negative-index wrap-around; `none`
models `IndexError`. -/
def pyListGet {α : Type} (l : List α) (i : Int) : Option α :=
  let j : Int := if i < 0 then (l.length : Int) + i else i
  if h : 0 ≤ j ∧ j < (l.length : Int) then
    some (l.get ⟨j.toNat, by omega⟩)
  else
    none

/-- Membership of a `UniqueInstruction` in a Python set represented as the
list of its (pairwise non-identical) members. -/
def uiMem (seen : List UniqueInstruction) (i : UniqueInstruction) : Bool :=
  seen.any (fun s => UniqueInstruction.setIdent s i)

/-- Add to a Python set of `UniqueInstruction`s (no-op when an identical
member is present). -/
def uiAdd (seen : List UniqueInstruction) (i : UniqueInstruction) :
    List UniqueInstruction :=
  if uiMem seen i then seen else seen ++ [i]

/-- The de-duplicating traversal
`[i for i in xs if not (i in instructions or instructions.add(i))]`
(`slicer/dynamic_slicer.py`, lines 155-157), written over the already
reversed list. -/
def pyDedupGo (seen : List UniqueInstruction) :
    List UniqueInstruction → List UniqueInstruction
  | [] => []
  | i :: rest =>
    if uiMem seen i then pyDedupGo seen rest
    else i :: pyDedupGo (seen ++ [i]) rest

def pyDedup (l : List UniqueInstruction) : List UniqueInstruction :=
  pyDedupGo [] l

theorem uiMem_iff (seen : List UniqueInstruction) (i : UniqueInstruction) :
    uiMem seen i = true ↔
      ∃ s ∈ seen, UniqueInstruction.setIdent s i = true := by
  simp [uiMem, List.any_eq_true]

theorem uiMem_append_singleton (seen : List UniqueInstruction)
    (i c : UniqueInstruction) :
    uiMem (seen ++ [i]) c = (uiMem seen c || UniqueInstruction.setIdent i c) := by
  simp [uiMem, List.any_append]

theorem pyDedupGo_sublist (seen : List UniqueInstruction) :
    ∀ l : List UniqueInstruction, (pyDedupGo seen l).Sublist l := by
  intro l
  induction l generalizing seen with
  | nil => simp [pyDedupGo]
  | cons i rest ih =>
    simp only [pyDedupGo]
    by_cases h : uiMem seen i = true
    · simp only [h, if_true]
      exact (ih seen).cons i
    · simp only [h, if_false, Bool.false_eq_true]
      exact (ih (seen ++ [i])).cons₂ i

theorem pyDedupGo_not_seen (seen : List UniqueInstruction)
    (l : List UniqueInstruction) :
    ∀ a ∈ pyDedupGo seen l, uiMem seen a = false := by
  induction l generalizing seen with
  | nil => simp [pyDedupGo]
  | cons i rest ih =>
    intro a ha
    simp only [pyDedupGo] at ha
    by_cases h : uiMem seen i = true
    · rw [if_pos h] at ha
      exact ih seen a ha
    · rw [if_neg h] at ha
      rcases List.mem_cons.mp ha with rfl | ha
      · simpa using h
      · have := ih (seen ++ [i]) a ha
        rw [uiMem_append_singleton] at this
        exact (Bool.or_eq_false_iff.mp this).1

theorem pyDedupGo_pairwise (seen : List UniqueInstruction)
    (l : List UniqueInstruction) :
    (pyDedupGo seen l).Pairwise
      (fun a b => UniqueInstruction.setIdent a b = false) := by
  induction l generalizing seen with
  | nil => simp [pyDedupGo]
  | cons i rest ih =>
    simp only [pyDedupGo]
    by_cases h : uiMem seen i = true
    · rw [if_pos h]
      exact ih seen
    · rw [if_neg h]
      refine List.Pairwise.cons ?_ (ih (seen ++ [i]))
      intro b hb
      have hnb := pyDedupGo_not_seen (seen ++ [i]) rest b hb
      rw [uiMem_append_singleton] at hnb
      exact (Bool.or_eq_false_iff.mp hnb).2

theorem pyDedupGo_preserves_class (seen : List UniqueInstruction)
    (l : List UniqueInstruction) (c : UniqueInstruction)
    (hl : ∃ d ∈ l, UniqueInstruction.setIdent d c = true)
    (hs : uiMem seen c = false) :
    ∃ d ∈ pyDedupGo seen l, UniqueInstruction.setIdent d c = true := by
  induction l generalizing seen with
  | nil => simp at hl
  | cons i rest ih =>
    simp only [pyDedupGo]
    rcases hl with ⟨d, hd, hdc⟩
    by_cases h : uiMem seen i = true
    · rw [if_pos h]
      rcases List.mem_cons.mp hd with rfl | hdr
      · -- the head is identical to c but an identical member was seen already,
        -- contradicting hs
        exfalso
        rcases (uiMem_iff seen d).mp h with ⟨s, hsmem, hsi⟩
        have hsc : UniqueInstruction.setIdent s c = true :=
          UniqueInstruction.setIdent_trans hsi hdc
        have : uiMem seen c = true := (uiMem_iff seen c).mpr ⟨s, hsmem, hsc⟩
        rw [hs] at this
        exact Bool.false_ne_true this
      · exact ih seen ⟨d, hdr, hdc⟩ hs
    · rw [if_neg h]
      rcases List.mem_cons.mp hd with rfl | hdr
      · exact ⟨d, List.mem_cons_self _ _, hdc⟩
      · by_cases hic : UniqueInstruction.setIdent i c = true
        · exact ⟨i, List.mem_cons_self _ _, hic⟩
        · have hs' : uiMem (seen ++ [i]) c = false := by
            rw [uiMem_append_singleton, hs]
            simpa using hic
          rcases ih (seen ++ [i]) ⟨d, hdr, hdc⟩ hs' with ⟨e, he, hec⟩
          exact ⟨e, List.mem_cons_of_mem _ he, hec⟩

/-! ## Executed instructions (trace events), from
`pyChecco/execution/executed_instruction.py`. -/

/-- Fields shared by every `ExecutedInstruction`. -/
structure ExecBase where
  file : String
  code_object_id : Int
  node_id : Int
  opcode : Nat
  lineno : Int
  offset : Int
deriving DecidableEq

/-- The closed taxonomy of trace events (`executed_instruction.py`):
generic, memory, attribute, control, call and return variants. -/
inductive ExecutedInstruction where
  | generic (base : ExecBase) (arg : PyArg)
  | memory (base : ExecBase) (argName : String) (argAddress : Int)
      (isMutableType : Bool) (objectCreation : Bool)
  | attribute (base : ExecBase) (attrName : String) (srcAddress : Int)
      (argAddress : Int) (isMutableType : Bool)
  | control (base : ExecBase) (targetId : Int)
  | callEvent (base : ExecBase) (arg : Int)
  | returnEvent (base : ExecBase)
deriving DecidableEq

/-- `ExecutedAttributeInstruction.combined_attr = hex(src_address) + "_" +
attr_name` (`executed_instruction.py`, line 77). -/
def combinedAttr (srcAddress : Int) (attrName : String) : String :=
  pyHex srcAddress ++ "_" ++ attrName

/-! ## Stack-effect oracle, from `pyChecco/slicer/stack/stack_effect.py`. -/

/-- Exceptions of the embedded code (`pyChecco/utils/exceptions.py` plus the
built-in Python exceptions the sources can raise).  `outOfFuel` stands for a
run longer than the supplied fuel (no Python counterpart). -/
inductive SliceError where
  | instructionNotFound
  | uncertainStackEffect
  | valueError
  | typeError
  | indexError
  | assertionError
  | attributeError
  | keyError
  | slicingTimeout
  | outOfFuel
deriving DecidableEq

/-- `StackEffect.UNCERTAIN` (`stack_effect.py`, line 136). -/
def UNCERTAIN : List Nat :=
  [WITH_CLEANUP_START, WITH_CLEANUP_FINISH, SETUP_ASYNC_WITH, END_ASYNC_FOR,
   FORMAT_VALUE]

/-- The `_SE` static table (`stack_effect.py`, lines 44-132), keyed by
opcode: `some (pops, pushes)` when the opcode has an entry. -/
def seLookup (op : Nat) : Option (Int × Int) :=
  if op = NOP then some (0, 0)
  else if op = EXTENDED_ARG then some (0, 0)
  else if op = POP_TOP then some (1, 0)
  else if op = ROT_TWO then some (2, 2)
  else if op = ROT_THREE then some (3, 3)
  else if op = ROT_FOUR then some (4, 4)
  else if op = DUP_TOP then some (1, 2)
  else if op = DUP_TOP_TWO then some (2, 4)
  else if op = UNARY_POSITIVE ∨ op = UNARY_NEGATIVE ∨ op = UNARY_NOT ∨
          op = UNARY_INVERT then some (1, 1)
  else if op = SET_ADD then some (2, 1)
  else if op = LIST_APPEND then some (1, 0)
  else if op = MAP_ADD then some (2, 0)
  else if op = BINARY_POWER ∨ op = BINARY_MULTIPLY ∨
          op = BINARY_MATRIX_MULTIPLY ∨ op = BINARY_MODULO ∨
          op = BINARY_ADD ∨ op = BINARY_SUBTRACT ∨ op = BINARY_SUBSCR ∨
          op = BINARY_FLOOR_DIVIDE ∨ op = BINARY_TRUE_DIVIDE then some (2, 1)
  else if op = INPLACE_FLOOR_DIVIDE ∨ op = INPLACE_TRUE_DIVIDE then some (2, 1)
  else if op = INPLACE_ADD ∨ op = INPLACE_SUBTRACT ∨ op = INPLACE_MULTIPLY ∨
          op = INPLACE_MATRIX_MULTIPLY ∨ op = INPLACE_MODULO then some (2, 1)
  else if op = STORE_SUBSCR then some (3, 0)
  else if op = DELETE_SUBSCR then some (2, 0)
  else if op = BINARY_LSHIFT ∨ op = BINARY_RSHIFT ∨ op = BINARY_AND ∨
          op = BINARY_XOR ∨ op = BINARY_OR then some (2, 1)
  else if op = INPLACE_POWER then some (2, 1)
  else if op = GET_ITER then some (1, 1)
  else if op = PRINT_EXPR then some (1, 0)
  else if op = LOAD_BUILD_CLASS then some (0, 1)
  else if op = INPLACE_LSHIFT ∨ op = INPLACE_RSHIFT ∨ op = INPLACE_AND ∨
          op = INPLACE_XOR ∨ op = INPLACE_OR then some (2, 1)
  else if op = RETURN_VALUE then some (1, 0)
  else if op = IMPORT_STAR then some (1, 0)
  else if op = SETUP_ANNOT then some (0, 0)
  else if op = YIELD_VALUE then some (1, 1)
  else if op = YIELD_FROM then some (2, 1)
  else if op = POP_BLOCK then some (0, 0)
  else if op = POP_EXCEPT then some (3, 0)
  else if op = POP_FINALLY ∨ op = END_FINALLY then some (6, 0)
  else if op = STORE_NAME then some (1, 0)
  else if op = DELETE_NAME then some (0, 0)
  else if op = STORE_ATTR then some (2, 0)
  else if op = DELETE_ATTR then some (1, 0)
  else if op = STORE_GLOBAL then some (1, 0)
  else if op = DELETE_GLOBAL then some (0, 0)
  else if op = LOAD_CONST then some (0, 1)
  else if op = LOAD_NAME then some (0, 1)
  else if op = LOAD_ATTR then some (1, 1)
  else if op = COMPARE_OP then some (2, 1)
  else if op = IMPORT_NAME then some (2, 1)
  else if op = IMPORT_FROM then some (0, 1)
  else if op = JUMP_FORWARD then some (0, 0)
  else if op = JUMP_ABSOLUTE then some (0, 0)
  else if op = POP_JUMP_IF_FALSE then some (1, 0)
  else if op = POP_JUMP_IF_TRUE then some (1, 0)
  else if op = LOAD_GLOBAL then some (0, 1)
  else if op = BEGIN_FINALLY then some (0, 6)
  else if op = LOAD_FAST then some (0, 1)
  else if op = STORE_FAST then some (1, 0)
  else if op = DELETE_FAST then some (0, 0)
  else if op = LOAD_CLOSURE then some (0, 1)
  else if op = LOAD_DEREF ∨ op = LOAD_CLASSDEREF then some (0, 1)
  else if op = STORE_DEREF then some (1, 0)
  else if op = DELETE_DEREF then some (0, 0)
  else if op = GET_AWAITABLE then some (1, 1)
  else if op = BEFORE_ASYNC_WITH then some (1, 2)
  else if op = GET_AITER then some (1, 1)
  else if op = GET_ANEXT then some (1, 2)
  else if op = GET_YIELD_FROM_ITER then some (1, 1)
  else if op = LOAD_METHOD then some (1, 2)
  else none

/-- The argument-dependent tail of `stack_effect` (`stack_effect.py`,
lines 173-219) for opcodes that reached it with `arg = None`: Python
raises `TypeError` on the bitwise/arithmetic uses of the argument (and for
`UNPACK_SEQUENCE` builds a tuple containing `None` that fails only at the
use site); no modelled code path reaches these. -/
def stack_effect_arg_none (opcode : Nat) : Except SliceError (Int × Int) :=
  if opcode = UNPACK_SEQUENCE ∨ opcode = UNPACK_EX ∨
      opcode = BUILD_TUPLE ∨ opcode = BUILD_LIST ∨ opcode = BUILD_SET ∨
      opcode = BUILD_STRING ∨ opcode = BUILD_LIST_UNPACK ∨
      opcode = BUILD_TUPLE_UNPACK ∨
      opcode = BUILD_TUPLE_UNPACK_WITH_CALL ∨
      opcode = BUILD_SET_UNPACK ∨ opcode = BUILD_MAP_UNPACK ∨
      opcode = BUILD_MAP_UNPACK_WITH_CALL ∨ opcode = BUILD_MAP ∨
      opcode = BUILD_CONST_KEY_MAP ∨ opcode = RAISE_VARARGS ∨
      opcode = CALL_FUNCTION ∨ opcode = CALL_METHOD ∨
      opcode = CALL_FUNCTION_KW ∨ opcode = CALL_FUNCTION_EX ∨
      opcode = MAKE_FUNCTION ∨ opcode = BUILD_SLICE then
    .error .typeError
  else .error .valueError

/-- The argument-dependent effects (`stack_effect.py`, lines 173-219);
the final `.error .valueError` is the `raise ValueError` for unrecognized
opcodes. -/
def stack_effect_arg_some (opcode : Nat) (a : Int) :
    Except SliceError (Int × Int) :=
  if opcode = UNPACK_SEQUENCE then .ok (1, a)
  else if opcode = UNPACK_EX then .ok (1, (a % 256) + (a / 256) + 1)
  else if opcode = BUILD_TUPLE ∨ opcode = BUILD_LIST ∨
      opcode = BUILD_SET ∨ opcode = BUILD_STRING then .ok (a, 1)
  else if opcode = BUILD_LIST_UNPACK ∨ opcode = BUILD_TUPLE_UNPACK ∨
      opcode = BUILD_TUPLE_UNPACK_WITH_CALL ∨
      opcode = BUILD_SET_UNPACK ∨ opcode = BUILD_MAP_UNPACK ∨
      opcode = BUILD_MAP_UNPACK_WITH_CALL then .ok (a, 1)
  else if opcode = BUILD_MAP then .ok (2 * a, 1)
  else if opcode = BUILD_CONST_KEY_MAP then .ok (1 + a, 1)
  else if opcode = RAISE_VARARGS then .ok (a, 0)
  else if opcode = CALL_FUNCTION then .ok (1 + a, 1)
  else if opcode = CALL_METHOD then .ok (2 + a, 1)
  else if opcode = CALL_FUNCTION_KW then .ok (2 + a, 1)
  else if opcode = CALL_FUNCTION_EX then
    .ok (if a % 2 = 1 then 3 else 2, 1)
  else if opcode = MAKE_FUNCTION then
    .ok (2 + (if a % 2 = 1 then 1 else 0) +
         (if (a / 2) % 2 = 1 then 1 else 0) +
         (if (a / 4) % 2 = 1 then 1 else 0) +
         (if (a / 8) % 2 = 1 then 1 else 0), 1)
  else if opcode = BUILD_SLICE then
    if a = 3 then .ok (3, 1) else .ok (2, 1)
  else .error .valueError

/-- The jump-dependent effects (`stack_effect.py`, lines 151-171),
falling through to the argument-dependent ones. -/
def stack_effect_jump (opcode : Nat) (arg : Option Int) (jump : Bool) :
    Except SliceError (Int × Int) :=
  if opcode = SETUP_WITH then
    if !jump then .ok (0, 1) else .ok (0, 6)
  else if opcode = FOR_ITER then
    if !jump then .ok (1, 2) else .ok (1, 0)
  else if opcode = JUMP_IF_TRUE_OR_POP ∨ opcode = JUMP_IF_FALSE_OR_POP then
    if !jump then .ok (1, 0) else .ok (0, 0)
  else if opcode = SETUP_FINALLY then
    if !jump then .ok (0, 0) else .ok (0, 6)
  else if opcode = CALL_FINALLY then
    if !jump then .ok (0, 1) else .ok (0, 0)
  else
    match arg with
    | none => stack_effect_arg_none opcode
    | some a => stack_effect_arg_some opcode a

/-- `StackEffect.stack_effect(opcode, arg, jump)` (`stack_effect.py`, lines
142-219).  `.error .uncertainStackEffect` models
`UncertainStackEffectException`, `.error .valueError` the final
`ValueError` for unrecognized opcodes. -/
def stack_effect (opcode : Nat) (arg : Option Int) (jump : Bool) :
    Except SliceError (Int × Int) :=
  if opcode ∈ UNCERTAIN then .error .uncertainStackEffect
  else
    match seLookup opcode with
    | some pair => .ok pair
    | none => stack_effect_jump opcode arg jump

/-! ## Trace-stack simulator, from
`pyChecco/slicer/stack/stack_simulation.py`.

Block stacks and the frame stack keep their top element at the HEAD of the
list (Python keeps it at the end); `BlockStack.peek` is `head?`. -/

/-- `FrameStack` (`stack_simulation.py`, lines 41-49). -/
structure FrameStack where
  code_object_id : Int
  blockStacks : List (List UniqueInstruction)
  attributeUses : Finset String
  importNameInstr : Option UniqueInstruction
deriving DecidableEq

/-- `TraceStack` state (`stack_simulation.py`, line 52). -/
structure TraceStack where
  frameStacks : List FrameStack
deriving DecidableEq

namespace TraceStack

/-- `DEFAULT_STACK_HEIGHT` / `DEFAULT_FRAME_HEIGHT` (lines 24-25). -/
def DEFAULT_STACK_HEIGHT : Nat := 40
def DEFAULT_FRAME_HEIGHT : Nat := 40

/-- `TraceStack.__init__` + `_prepare_stack` (lines 52-70): forty dummy
frames, each with forty empty block stacks. -/
def initial : TraceStack :=
  { frameStacks :=
      List.replicate DEFAULT_STACK_HEIGHT
        { code_object_id := -1
          blockStacks := List.replicate DEFAULT_FRAME_HEIGHT []
          attributeUses := ∅
          importNameInstr := none } }

/-- `push_stack` (lines 72-73). -/
def push_stack (ts : TraceStack) (code_object_id : Int) : TraceStack :=
  { frameStacks :=
      { code_object_id := code_object_id
        blockStacks := [[]]
        attributeUses := ∅
        importNameInstr := none } :: ts.frameStacks }

/-- `push_artificial_stack` (lines 75-76). -/
def push_artificial_stack (ts : TraceStack) : TraceStack :=
  ts.push_stack (-1)

/-- `pop_stack` (lines 78-87): `IndexError` on an empty frame stack; the
assertion that a non-dummy frame has exactly one block stack. -/
def pop_stack (ts : TraceStack) : Except SliceError TraceStack :=
  match ts.frameStacks with
  | [] => .error .indexError
  | f :: rest =>
    if f.code_object_id ≠ -1 ∧ f.blockStacks.length ≠ 1 then
      .error .assertionError
    else .ok { frameStacks := rest }

/-- `get_import_frame` (lines 147-148). -/
def get_import_frame (ts : TraceStack) :
    Except SliceError (Option UniqueInstruction) :=
  match ts.frameStacks with
  | [] => .error .indexError
  | f :: _ => .ok f.importNameInstr

/-- `set_import_frame` (lines 150-151). -/
def set_import_frame (ts : TraceStack) (instr : Option UniqueInstruction) :
    Except SliceError TraceStack :=
  match ts.frameStacks with
  | [] => .error .indexError
  | f :: rest => .ok { frameStacks := { f with importNameInstr := instr } :: rest }

/-- `set_attribute_uses` (lines 139-142): stores a fresh copy of the set. -/
def set_attribute_uses (ts : TraceStack) (uses : Finset String) :
    Except SliceError TraceStack :=
  match ts.frameStacks with
  | [] => .error .indexError
  | f :: rest => .ok { frameStacks := { f with attributeUses := uses } :: rest }

/-- `get_attribute_uses` (lines 144-145). -/
def get_attribute_uses (ts : TraceStack) : Except SliceError (Finset String) :=
  match ts.frameStacks with
  | [] => .error .indexError
  | f :: _ => .ok f.attributeUses

/-- The pop loop of `update_push_operations` (lines 102-124): pops up to
`n` producers off the block stack (top at head), catching the underflow
`IndexError` (`tos_instr = None` contributes nothing), and updates the
`imp_dependency` / `include_use` flags exactly as the source does. -/
def pushLoop : Nat → List UniqueInstruction → Bool → Bool →
    (List UniqueInstruction × Bool × Bool)
  | 0, bs, dep, inc => (bs, dep, inc)
  | n + 1, [], dep, inc => pushLoop n [] dep inc
  | n + 1, tos :: rest, dep, inc =>
    if tos.in_slice then
      let inc :=
        if tos.opcode = STORE_ATTR ∨ tos.opcode = STORE_SUBSCR then
          if rest.length > 0 then
            match rest.head? with
            | some tos1 => if tos1.opcode = tos.opcode then false else inc
            | none => inc
          else inc
        else inc
      let inc :=
        if tos.opcode = LOAD_ATTR ∨ tos.opcode = DELETE_ATTR ∨
            tos.opcode = IMPORT_FROM then false
        else inc
      pushLoop n rest true inc
    else pushLoop n rest dep inc

/-- `update_push_operations(num_pushes, returned)` (lines 89-126).  Errors
are the `IndexError`s Python raises when the frame stack (or, with
`returned`, the previous frame) is missing; block-stack underflow is caught
inside the loop. -/
def update_push_operations (ts : TraceStack) (numPushes : Nat)
    (returned : Bool) :
    Except SliceError (TraceStack × Bool × Bool) :=
  match ts.frameStacks with
  | [] => .error .indexError
  | currFrame :: restFrames =>
    match currFrame.blockStacks with
    | [] => .error .indexError
    | currBlock :: restBlocks => do
      let dep0 ←
        if returned then
          match restFrames with
          | [] => .error .indexError
          | prevFrame :: _ =>
            match prevFrame.blockStacks with
            | [] => .error .indexError
            | prevBlock :: _ =>
              match prevBlock.head? with
              | some top => pure top.in_slice
              | none => pure false
        else pure false
      let (bs, dep, inc) := pushLoop numPushes currBlock dep0 true
      .ok ({ frameStacks :=
               { currFrame with blockStacks := bs :: restBlocks } :: restFrames },
           dep, inc)

/-- `update_pop_operations(num_pops, unique_instr, in_slice)` (lines
128-137): marks the instruction in-slice when requested and pushes it
`num_pops` times onto the current block stack. -/
def update_pop_operations (ts : TraceStack) (numPops : Nat)
    (instr : UniqueInstruction) (inSlice : Bool) :
    Except SliceError (TraceStack × UniqueInstruction) :=
  match ts.frameStacks with
  | [] => .error .indexError
  | currFrame :: restFrames =>
    match currFrame.blockStacks with
    | [] => .error .indexError
    | currBlock :: restBlocks =>
      let marked := if inSlice then instr.set_in_slice else instr
      .ok ({ frameStacks :=
               { currFrame with
                   blockStacks :=
                     (List.replicate numPops marked ++ currBlock) :: restBlocks }
               :: restFrames },
           marked)

end TraceStack

/-! ## Slicing context and dependency analyses, from
`pyChecco/slicer/dynamic_slicer.py`. -/

/-- `SlicingContext` (`dynamic_slicer.py`, lines 56-73).  `DS` is the
ordered slice accumulator; `S_C` is a Python set of `UniqueInstruction`s
(kept as a list of pairwise non-identical members); the `D_*` components
are Python sets of strings/tuples, whose iteration order is not observable
in the embedded code paths. -/
structure SlicingContext where
  DS : List UniqueInstruction
  S_C : List UniqueInstruction
  D_local : Finset (String × Int)
  D_global : Finset (String × String)
  D_nonlocal : Finset (String × List Int)
  D_addresses : Finset String
  D_attributes : Finset String
  attribute_variables : Finset String
deriving DecidableEq

/-- The empty initial context (`SlicingContext.__init__`). -/
def SlicingContext.initial : SlicingContext :=
  ⟨[], [], ∅, ∅, ∅, ∅, ∅, ∅⟩

/-- `DynamicSlicer._check_scope_for_def` (`dynamic_slicer.py`, lines
461-479), specialised to the predicate each call site builds from
`argument` and `comp_op`: returns whether anything matched and the scope
with the matched elements removed. -/
def check_scope_for_def {α : Type} [DecidableEq α] (scope : Finset α)
    (p : α → Prop) [DecidablePred p] : Bool × Finset α :=
  let matched := scope.filter p
  (if matched = ∅ then false else true, scope \ matched)

/-- Character-level test that `p` begins `s` (Python `str.startswith`,
written as structural recursion so that it evaluates in the kernel). -/
def pyStartsWithAux : List Char → List Char → Bool
  | [], _ => true
  | _ :: _, [] => false
  | p :: ps, c :: cs => p = c && pyStartsWithAux ps cs

/-- Python `s.startswith(p)`. -/
def pyStartsWith (s p : String) : Bool :=
  pyStartsWithAux p.data s.data

/-- The characters after the first `'_'` (empty when there is none). -/
def afterUnderscoreChars : List Char → List Char
  | [] => []
  | c :: cs => if c = '_' then cs else afterUnderscoreChars cs

/-- `"_".join(use.split("_")[1:])` (`dynamic_slicer.py`, line 429):
splitting on every underscore and re-joining from the second group yields
exactly the part of the key after its FIRST underscore (or `""` when the
key has no underscore). -/
def afterFirstUnderscore (use : String) : String :=
  String.mk (afterUnderscoreChars use.data)

/-- The promotion match (`dynamic_slicer.py`, lines 425-426):
`use.startswith(hex(arg_address)) and len(use) > len(hex(arg_address))`.
Note the underscore is NOT part of the tested prefix. -/
def promotionMatch (argAddress : Int) (use : String) : Prop :=
  pyStartsWith use (pyHex argAddress) = true ∧
    (pyHex argAddress).length < use.length

instance (argAddress : Int) : DecidablePred (promotionMatch argAddress) :=
  fun use => by unfold promotionMatch; infer_instance

/-- The variable-definition branch chain of
`check_explicit_data_dependency` (`dynamic_slicer.py`, lines 386-417):
dispatch on the def opcode, match the pending uses of the corresponding
scope and remove the matched entries; `IMPORT_NAME` instead covers a
pending address on object creation. -/
def variable_def_cover (isModuleCO : Int → Bool) (ctx : SlicingContext)
    (base : ExecBase) (argName : String) (argAddress : Int)
    (objectCreation : Bool) : Except SliceError (Bool × SlicingContext) :=
  if base.opcode = STORE_FAST ∨ base.opcode = DELETE_FAST then
    let (c, s) := check_scope_for_def ctx.D_local
      (fun t => t.1 = argName ∧ t.2 = base.code_object_id)
    pure (c, { ctx with D_local := s })
  else if base.opcode = STORE_NAME ∨ base.opcode = DELETE_NAME then
    if isModuleCO base.code_object_id then
      let (c, s) := check_scope_for_def ctx.D_global
        (fun t => t.1 = argName ∧ t.2 = base.file)
      pure (c, { ctx with D_global := s })
    else
      let (c, s) := check_scope_for_def ctx.D_local
        (fun t => t.1 = argName ∧ t.2 = base.code_object_id)
      pure (c, { ctx with D_local := s })
  else if base.opcode = STORE_GLOBAL ∨ base.opcode = DELETE_GLOBAL then
    let (c, s) := check_scope_for_def ctx.D_global
      (fun t => t.1 = argName ∧ t.2 = base.file)
    pure (c, { ctx with D_global := s })
  else if base.opcode = STORE_DEREF ∨ base.opcode = DELETE_DEREF then
    let (c, s) := check_scope_for_def ctx.D_nonlocal
      (fun t => t.1 = argName ∧ base.code_object_id ∈ t.2)
    pure (c, { ctx with D_nonlocal := s })
  else if base.opcode = IMPORT_NAME then
    if argAddress ≠ 0 ∧ pyHex argAddress ∈ ctx.D_addresses ∧
        objectCreation then
      pure (true, { ctx with
        D_addresses := ctx.D_addresses.erase (pyHex argAddress) })
    else pure (false, ctx)
  else .error .valueError

/-- `DynamicSlicer.check_explicit_data_dependency` (`dynamic_slicer.py`,
lines 373-459).  `isModuleCO i` models
`known_code_objects.get(i).code_object.co_name == "<module>"`.  Returns
`(complete_cover or partial_cover, attribute_creation_uses)` together with
the updated context; `.error .valueError` models the `raise ValueError`
for an opcode outside the def-analysis set. -/
def check_explicit_data_dependency (isModuleCO : Int → Bool)
    (ctx : SlicingContext) (uniqueInstr : UniqueInstruction)
    (tracedInstr : Option ExecutedInstruction) :
    Except SliceError (Bool × Finset String × SlicingContext) :=
  if ¬ uniqueInstr.is_def then .ok (false, ∅, ctx)
  else
    match tracedInstr with
    | some (.memory base argName argAddress isMutableType objectCreation) => do
      -- variable-definition branch chain (lines 386-417)
      let (complete₁, ctx) ←
        variable_def_cover isModuleCO ctx base argName argAddress
          objectCreation
      -- object-creation promotion (lines 422-431)
      let (complete₂, attributeCreationUses, ctx) :=
        if argAddress ≠ 0 ∧ objectCreation then
          let matched := ctx.D_attributes.filter (promotionMatch argAddress)
          (if matched = ∅ then false else true,
           matched.image afterFirstUnderscore,
           { ctx with D_attributes := ctx.D_attributes \ matched })
        else (false, ∅, ctx)
      -- address cover (lines 434-440)
      let (complete₃, ctx) :=
        if isMutableType ∧ objectCreation then
          let (c, s) := check_scope_for_def ctx.D_addresses
            (fun t => t = pyHex argAddress)
          (c, { ctx with D_addresses := s })
        else (false, ctx)
      -- attribute-to-variable cover (lines 443-445)
      let (complete₄, ctx) :=
        if argName ∈ ctx.attribute_variables then
          (true, { ctx with
            attribute_variables := ctx.attribute_variables.erase argName })
        else (false, ctx)
      .ok (complete₁ || complete₂ || complete₃ || complete₄,
           attributeCreationUses, ctx)
    | some (.attribute _base attrName srcAddress _argAddress _isMutableType) =>
      -- attribute-definition branch (lines 450-457)
      let combined := combinedAttr srcAddress attrName
      let (complete, ctx) :=
        if combined ∈ ctx.D_attributes then
          (true, { ctx with D_attributes := ctx.D_attributes.erase combined })
        else (false, ctx)
      let partCover := pyHex srcAddress ∈ ctx.D_addresses
      .ok (complete || partCover, ∅, ctx)
    | _ => .ok (false, ∅, ctx)

/-- The parent-chain walk of `DynamicSlicer.add_uses` for non-local uses
(`dynamic_slicer.py`, lines 504-512): climbs `parent_code_object_id` links
until the name is among a code object's cell variables.  `codeMeta i`
returns `(parent_code_object_id, co_cellvars)`; a missing id models the
`KeyError` of `known_code_objects[...]`.  Python iterates `tuple(set(...))`;
the chain ids are collected here in visit order (they are pairwise distinct
on real parent chains, and only membership in the tuple is ever tested). -/
def nonlocalChain (codeMeta : Int → Option (Option Int × List String)) :
    Nat → String → Option Int → List Int → Except SliceError (List Int)
  | 0, _, _, _ => .error .outOfFuel
  | fuel + 1, argName, current, acc =>
    match current with
    | none => .error .keyError
    | some c =>
      match codeMeta c with
      | none => .error .keyError
      | some (parentId, cellvars) =>
        let acc := if c ∈ acc then acc else acc ++ [c]
        if argName ∈ cellvars then .ok acc
        else nonlocalChain codeMeta fuel argName parentId acc

/-- `DynamicSlicer.add_uses` (`dynamic_slicer.py`, lines 481-533). -/
def add_uses (isModuleCO : Int → Bool)
    (codeMeta : Int → Option (Option Int × List String)) (fuel : Nat)
    (ctx : SlicingContext) (tracedInstr : Option ExecutedInstruction) :
    Except SliceError SlicingContext :=
  match tracedInstr with
  | some (.memory base argName argAddress isMutableType _objectCreation) => do
    let ctx :=
      if argAddress ≠ 0 ∧ isMutableType then
        { ctx with D_addresses := insert (pyHex argAddress) ctx.D_addresses }
      else ctx
    if base.opcode = LOAD_FAST then
      .ok { ctx with
        D_local := insert (argName, base.code_object_id) ctx.D_local }
    else if base.opcode = LOAD_NAME then
      if isModuleCO base.code_object_id then
        .ok { ctx with D_global := insert (argName, base.file) ctx.D_global }
      else
        .ok { ctx with
          D_local := insert (argName, base.code_object_id) ctx.D_local }
    else if base.opcode = LOAD_GLOBAL then
      .ok { ctx with D_global := insert (argName, base.file) ctx.D_global }
    else if base.opcode = LOAD_CLOSURE ∨ base.opcode = LOAD_DEREF ∨
        base.opcode = LOAD_CLASSDEREF then do
      let scope ← nonlocalChain codeMeta fuel argName
        (some base.code_object_id) []
      .ok { ctx with D_nonlocal := insert (argName, scope) ctx.D_nonlocal }
    else .error .valueError
  | some (.attribute base attrName srcAddress argAddress isMutableType) =>
    let ctx :=
      if argAddress ≠ 0 ∧ isMutableType then
        { ctx with D_addresses := insert (pyHex argAddress) ctx.D_addresses }
      else ctx
    let ctx :=
      if argAddress ≠ 0 then
        { ctx with
          D_attributes :=
            insert (combinedAttr srcAddress attrName) ctx.D_attributes }
      else ctx
    let ctx :=
      if argAddress = 0 ∨ base.opcode = IMPORT_FROM then
        { ctx with D_addresses := insert (pyHex srcAddress) ctx.D_addresses }
      else ctx
    .ok ctx
  | _ => .ok ctx

/-- `DynamicSlicer.check_control_dependency` (`dynamic_slicer.py`, lines
310-333).  `cdgSucc co n` lists the node indices of
`cdg.get_successors(get_node(n, cdg))` in the CDG of code object `co`
(node objects compare by index; a `node_id` absent from the graph yields
`None`, which is never a member of the successor list). -/
def check_control_dependency (cdgSucc : Int → Int → List Int)
    (ctx : SlicingContext) (uniqueInstr : UniqueInstruction)
    (code_object_id : Int) : Bool × SlicingContext :=
  if ¬ uniqueInstr.is_cond_branch then (false, ctx)
  else
    let successors := cdgSucc code_object_id uniqueInstr.node_id
    let removed := ctx.S_C.filter (fun i => i.node_id ∈ successors)
    (!removed.isEmpty,
     { ctx with S_C := ctx.S_C.filter (fun i => i.node_id ∉ successors) })

/-- `DynamicSlicer.add_control_dependencies` (`dynamic_slicer.py`, lines
335-343).  `cdgPred co n` lists `(index, is_artificial)` of the CDG
predecessors of node `n` in code object `co`. -/
def add_control_dependencies (cdgPred : Int → Int → List (Int × Bool))
    (ctx : SlicingContext) (uniqueInstr : UniqueInstruction)
    (code_object_id : Int) : SlicingContext :=
  let preds := cdgPred code_object_id uniqueInstr.node_id
  if preds.any (fun p => !p.2) then
    { ctx with S_C := uiAdd ctx.S_C uniqueInstr }
  else ctx

/-- `DynamicSlicer.find_trace_position` (`dynamic_slicer.py`, lines
535-550), embedded faithfully.  The source iterates
`zip(trace.executed_instructions)` — `zip` with a single iterable yields
1-tuples, so the unpacking `ex_instr, position` raises
`ValueError: not enough values to unpack (expected 2, got 1)` on the first
event; only an empty trace reaches the final
`ValueError("Slicing criterion could not be found in trace")`. -/
def find_trace_position (executed : List ExecutedInstruction)
    (_criterion : UniqueInstruction) (_occurrence : Int) :
    Except String Int :=
  match executed with
  | [] => .error "Slicing criterion could not be found in trace"
  | _ :: _ => .error "not enough values to unpack (expected 2, got 1)"

/-! ## Control-dependence graph, from
`pyChecco/analyses/controlflow/controldependencegraph.py`.

`cfg.py`, `programgraph.py` and `dominatortree.py` are not part of the
sources; nodes, graphs and the post-dominator tree are therefore modelled
from the spec.  `ProgramGraphNode`s are identified by their integer
`index` (node equality compares indices), a graph is a node list plus an
edge list, and the post-dominator tree is its parent function. -/

/-- A directed program graph over integer node indices. -/
structure PDGraph where
  nodes : List Int
  edges : List (Int × Int)
deriving DecidableEq

/-- `get_successors(s)`: targets of the edges leaving `s`. -/
def successorsOf (g : PDGraph) (s : Int) : List Int :=
  (g.edges.filter (fun e => e.1 = s)).map (·.2)

/-- The input CFG as `ControlDependenceGraph.compute` reads it: its graph,
its designated entry node and its exit nodes. -/
structure CFGModel where
  nodes : List Int
  edges : List (Int × Int)
  entry_node : Option Int
  exit_nodes : List Int
deriving DecidableEq

/-- `-sys.maxsize`, the index of the synthetic start node
(`controldependencegraph.py`, line 97). -/
def START_NODE_INDEX : Int := -(9223372036854775807 : Int)

/-- `ControlDependenceGraph._create_augmented_graph`
(`controldependencegraph.py`, lines 91-102): `none` models the failing
`assert entry_node`. -/
def create_augmented_graph (g : CFGModel) : Option PDGraph :=
  match g.entry_node with
  | none => none
  | some entry =>
    some { nodes := g.nodes ++ [START_NODE_INDEX]
           edges := g.edges ++
             (START_NODE_INDEX, entry) ::
               g.exit_nodes.map (fun e => (START_NODE_INDEX, e)) }

/-- Modelled from the spec: the upward chain of a node in the
post-dominator tree (`dominatortree.py` is not in the sources; the spec
describes the PDT as a tree in which every node has exactly one parent,
its immediate post-dominator).  The chain starts at the node itself and is
cut off by the fuel on malformed (cyclic) parent maps. -/
def ancestorChain (parent : Int → Option Int) : Nat → Int → List Int
  | 0, n => [n]
  | fuel + 1, n =>
    n :: (match parent n with
          | none => []
          | some p => ancestorChain parent fuel p)

/-- Modelled from the spec: `DominatorTree.get_transitive_successors(t)` —
all nodes reachable downward from `t` in the PDT, i.e. the nodes of which
`t` is a strict ancestor (the spec reads `s ∈ transitive_successors(t)` as
"`s` is post-dominated by `t`"). -/
def transitive_successors (parent : Int → Option Int) (nodes : List Int)
    (fuel : Nat) (t : Int) : List Int :=
  nodes.filter (fun n => t ∈ (ancestorChain parent fuel n).tail)

/-- Modelled from the spec: `DominatorTree.get_least_common_ancestor(u, v)`
— the first node on `u`'s upward chain that also lies on `v`'s chain. -/
def least_common_ancestor (parent : Int → Option Int) (fuel : Nat)
    (u v : Int) : Option Int :=
  (ancestorChain parent fuel u).find? (fun a => a ∈ ancestorChain parent fuel v)

/-- The `while current != least_common_ancestor` walk of
`ControlDependenceGraph.compute` (`controldependencegraph.py`, lines
76-84), returning the visited nodes (each of which receives a CDG edge).
`none` models either the failing tree-invariant assertion (a node without
the single predecessor) or a walk that never reaches the ancestor. -/
def walkUp (parent : Int → Option Int) : Nat → Int → Int → Option (List Int)
  | 0, current, lca => if current = lca then some [] else none
  | fuel + 1, current, lca =>
    if current = lca then some []
    else
      match parent current with
      | none => none
      | some p => (walkUp parent fuel p lca).map (fun rest => current :: rest)

/-- The edge-construction loop over the candidate edges
(`controldependencegraph.py`, lines 72-87): for each candidate `(s, t)`,
the edges `s → current` along the walk from `t` up to the least common
ancestor, plus `s → lca` when the ancestor is the source itself. -/
def collectCdgEdges (parent : Int → Option Int) (fuel : Nat) :
    List (Int × Int) → Option (List (Int × Int))
  | [] => some []
  | (s, t) :: rest => do
    let lca ← least_common_ancestor parent fuel s t
    let path ← walkUp parent fuel t lca
    let tailEdges ← collectCdgEdges parent fuel rest
    pure ((path.map (fun c => (s, c))) ++
          (if lca = s then [(s, lca)] else []) ++ tailEdges)

/-- `ControlDependenceGraph.compute` (`controldependencegraph.py`, lines
45-89), over the spec-modelled post-dominator tree `parent`: augment the
CFG, collect the candidate edges `(s, t)` with `s` not post-dominated by
`t`, and emit the walk edges.  The result is the CDG's node list (all
augmented-CFG nodes) and its edge list; `none` models the assertion
failures of the source. -/
def cdg_compute (g : CFGModel) (parent : Int → Option Int) :
    Option (List Int × List (Int × Int)) := do
  let aug ← create_augmented_graph g
  let fuel := aug.nodes.length + 1
  let candidates := aug.nodes.flatMap (fun s =>
    (successorsOf aug s).filterMap (fun t =>
      if s ∈ transitive_successors parent aug.nodes fuel t then none
      else some (s, t)))
  let edges ← collectCdgEdges parent fuel candidates
  pure (aug.nodes, edges)

/-- The claim's edge rule, written from the spec's words (§4.1): an edge
`s → n` exists iff some augmented-CFG edge `(s, t)` has `s` not
post-dominated by `t`, and `n` lies on the PDT path from `t` up to (and
excluding) the least common ancestor `L` of `s` and `t` — or `L = s` and
`n = s`. -/
def specCdgEdge (aug : PDGraph) (parent : Int → Option Int) (s n : Int) :
    Prop :=
  let fuel := aug.nodes.length + 1
  ∃ t, s ∈ aug.nodes ∧ t ∈ successorsOf aug s ∧
    s ∉ transitive_successors parent aug.nodes fuel t ∧
    ∃ L, least_common_ancestor parent fuel s t = some L ∧
      (n ∈ (ancestorChain parent fuel t).takeWhile (fun c => c ≠ L) ∨
       (L = s ∧ n = s))

/-! ## The main slicing loop, from `pyChecco/slicer/dynamic_slicer.py`
(`DynamicSlicer.slice`, lines 84-282).

The execution-flow reconstructor (`execution_flow_builder.py`), the
per-procedure disassembly and the CDGs are inputs of the loop; they are
passed in as an environment of functions, so every theorem below holds for
every behaviour of those collaborators — in particular for the real one.
`time.time()` is a stream of clock readings indexed by call counter
(called once at initialisation and once per loop iteration). -/

/-- `TRACED_INSTRUCTIONS` (`instrumentation/instruction_instrumentation.py`,
lines 48-71), the opcode categories concatenated as in the source. -/
def TRACED_INSTRUCTIONS : List Nat :=
  [UNARY_POSITIVE, UNARY_NEGATIVE, UNARY_NOT, UNARY_INVERT, GET_ITER,
   GET_YIELD_FROM_ITER] ++
  [BINARY_POWER, BINARY_MULTIPLY, BINARY_MATRIX_MULTIPLY,
   BINARY_FLOOR_DIVIDE, BINARY_TRUE_DIVIDE, BINARY_MODULO, BINARY_ADD,
   BINARY_SUBTRACT, BINARY_LSHIFT, BINARY_RSHIFT, BINARY_AND, BINARY_XOR,
   BINARY_OR] ++
  [INPLACE_POWER, INPLACE_MULTIPLY, INPLACE_MATRIX_MULTIPLY,
   INPLACE_FLOOR_DIVIDE, INPLACE_TRUE_DIVIDE, INPLACE_MODULO, INPLACE_ADD,
   INPLACE_SUBTRACT, INPLACE_LSHIFT, INPLACE_RSHIFT, INPLACE_AND,
   INPLACE_XOR, INPLACE_OR] ++
  [COMPARE_OP] ++
  [STORE_FAST, LOAD_FAST, DELETE_FAST] ++
  [STORE_NAME, LOAD_NAME, DELETE_NAME] ++
  [STORE_GLOBAL, LOAD_GLOBAL, DELETE_GLOBAL] ++
  [STORE_DEREF, LOAD_DEREF, DELETE_DEREF, LOAD_CLASSDEREF] ++
  [STORE_ATTR, LOAD_ATTR, DELETE_ATTR, IMPORT_FROM, LOAD_METHOD] ++
  [STORE_SUBSCR, DELETE_SUBSCR, BINARY_SUBSCR] ++
  [IMPORT_NAME] ++
  [JUMP_IF_FALSE_OR_POP, JUMP_IF_TRUE_OR_POP, JUMP_ABSOLUTE,
   POP_JUMP_IF_FALSE, POP_JUMP_IF_TRUE] ++
  [FOR_ITER, JUMP_FORWARD, SETUP_FINALLY, SETUP_WITH, SETUP_ASYNC_WITH,
   CALL_FINALLY] ++
  [CALL_FUNCTION, CALL_FUNCTION_KW, CALL_FUNCTION_EX, CALL_METHOD,
   YIELD_FROM] ++
  [RETURN_VALUE, YIELD_VALUE]

/-- `is_traced_instruction` (`instruction_instrumentation.py`, lines
748-755). -/
def is_traced_instruction (opcode : Nat) : Bool :=
  opcode ∈ TRACED_INSTRUCTIONS

/-- `LastInstrState` (`slicer/execution_flow_builder.py`, lines 30-51). -/
structure LastInstrState where
  file : String
  last_instr : Option PyInstr
  code_object_id : Int
  basic_block_id : Int
  offset : Int
  jump : Bool := false
  call : Bool := false
  returned : Bool := false
  exception : Bool := false
  import_start : Bool := false
  import_back_call : Option UniqueInstruction := none
deriving DecidableEq

/-- The failures `ExecutionFlowBuilder.get_last_instruction` can raise:
`InstructionNotFoundException` from the block/disassembly lookups, and the
`AssertionError` of the jump-origin check. -/
inductive FlowFailure where
  | instructionNotFound
  | assertionError
deriving DecidableEq

def FlowFailure.toSliceError : FlowFailure → SliceError
  | .instructionNotFound => .instructionNotFound
  | .assertionError => .assertionError

/-- The arguments of `get_last_instruction` (`execution_flow_builder.py`,
lines 69-70). -/
structure FlowQuery where
  file : String
  instr : PyInstr
  trace_pos : Int
  offset : Int
  code_object_id : Int
  basic_block_id : Int
  import_back_call : Option UniqueInstruction
deriving DecidableEq

/-- The collaborators `DynamicSlicer.slice` calls into, as functions:
the trace, the flow reconstructor, the disassembly lookups behind
`UniqueInstruction.__init__` and `_locate_unique_in_bytecode`, the
module-level test of `check_explicit_data_dependency`/`add_uses`, the CDG
queries, the code-object metadata chain, and the wall clock. -/
structure SliceEnv where
  executed_instructions : List ExecutedInstruction
  test_id : String
  get_last_instruction : FlowQuery → Except FlowFailure LastInstrState
  locate_unique : UniqueInstruction → Int → Int → Option PyInstr
  dis_info : Int → Nat → Int → Option (Option Int × Bool)
  isModuleCO : Int → Bool
  cdgSucc : Int → Int → List Int
  cdgPred : Int → Int → List (Int × Bool)
  codeMeta : Int → Option (Option Int × List String)
  chainFuel : Nat
  clock : Nat → Int
  max_slicing_time : Int

/-- `DynamicSlicer.create_unique_instruction` (`dynamic_slicer.py`, lines
304-308) together with `UniqueInstruction.__init__`'s disassembly lookup:
`env.dis_info co opcode offset` returns `(dis_arg, is_jump_target)` or
`none` for `InstructionNotFoundException`. -/
def create_unique_instruction (env : SliceEnv) (file : String)
    (instr : PyInstr) (code_object_id node_id offset : Int) :
    Except SliceError UniqueInstruction :=
  match env.dis_info code_object_id instr.opcode offset with
  | none => .error .instructionNotFound
  | some (darg, jt) =>
    .ok { file := file, opcode := instr.opcode, arg := instr.arg,
          lineno := instr.lineno, code_object_id := code_object_id,
          node_id := node_id, offset := offset, dis_arg := darg,
          is_jump_target := jt, inSliceFlag := false }

/-- `DynamicSlice` (`dynamic_slicer.py`, lines 40-43). -/
structure DynamicSlice where
  origin_name : String
  sliced_instructions : List UniqueInstruction
deriving DecidableEq

/-- `SlicingCriterion` (`dynamic_slicer.py`, lines 46-53); only the global
variables seed the context in `slice`. -/
structure SlicingCriterion where
  unique_instr : UniqueInstruction
  occurrence : Int
  global_variables : List (String × String)
deriving DecidableEq

/-- The loop-carried state of `DynamicSlicer.slice`: the local variables
of the `while True` loop at the top of an iteration (line 138).  `pops` and
`pushes` persist across iterations because the `except
UncertainStackEffectException` arm leaves them at their previous values
(they are provably never read in that case, since stack simulation is then
disabled). -/
structure SliceState where
  file : String
  curr_instr : PyInstr
  trace_position : Int
  offset : Int
  code_object_id : Int
  basic_block_id : Int
  stack_simulation : Bool
  trace_stack : TraceStack
  context : SlicingContext
  code_object_dependent : Bool
  new_attribute_object_uses : Finset String
  import_back_call : Option UniqueInstruction
  pops : Int
  pushes : Int
  clockIdx : Nat

/-- The stack housekeeping of each iteration (`dynamic_slicer.py`, lines
171-188): read the previous import frame; export the attribute variables;
on `returned` push a frame, install `new_attribute_object_uses` into it
(line 177's `clear()` precedes the unconditional rebinding at line 206 and
is never read in between) and set its import marker; on `call` or
`import_start` pop a frame and, when simulation was disabled, push an
artificial frame and re-enable it; finally import the attribute variables
and the import frame of the now-current frame. -/
def stack_housekeeping (ts0 : TraceStack) (attribute_variables0 : Finset String)
    (new_attribute_object_uses : Finset String) (last_state : LastInstrState)
    (code_object_id : Int) (stack_simulation : Bool) :
    Except SliceError
      (Option UniqueInstruction × TraceStack × Finset String ×
       Option UniqueInstruction × Bool) := do
  let prev_import_back_call ← ts0.get_import_frame
  let ts ← ts0.set_attribute_uses attribute_variables0
  let ts ←
    if last_state.returned then do
      let ts := ts.push_stack code_object_id
      let ts ← ts.set_attribute_uses new_attribute_object_uses
      ts.set_import_frame last_state.import_back_call
    else pure ts
  let (ts, stack_simulation) ←
    if last_state.call ∨ last_state.import_start then do
      let ts ← ts.pop_stack
      if !stack_simulation then pure (ts.push_artificial_stack, true)
      else pure (ts, stack_simulation)
    else pure (ts, stack_simulation)
  let attribute_variables ← ts.get_attribute_uses
  let import_back_call ← ts.get_import_frame
  .ok (prev_import_back_call, ts, attribute_variables, import_back_call,
       stack_simulation)

/-- The guarded stack-effect query of each iteration (`dynamic_slicer.py`,
lines 190-195): only `UncertainStackEffectException` is caught — it
disables stack simulation and leaves `pops`/`pushes` at their previous
values (which are provably never read while simulation is off); any other
exception propagates. -/
def effect_query (prevPops prevPushes : Int) (stack_simulation : Bool)
    (opcode : Nat) (dis_arg : Option Int) (jump : Bool) :
    Except SliceError (Int × Int × Bool) :=
  match stack_effect opcode dis_arg jump with
  | .ok (p, q) => .ok (p, q, stack_simulation)
  | .error .uncertainStackEffect => .ok (prevPops, prevPushes, false)
  | .error e => .error e

/-- The method-call/import dependency block (`dynamic_slicer.py`, lines
211-220).  With `import_start`, the governing `IMPORT_NAME` instruction is
appended to `DS` eagerly and its pops are injected (the object appended is
the one marked in-slice by `update_pop_operations` — aliasing).  A
missing import frame models `DS.append(None)` followed by the
`AttributeError` on
`None.opcode`; the aborted append is unobservable since nothing catches
the exception. -/
def import_call_dep (ctx : SlicingContext) (ts : TraceStack)
    (call import_start code_object_dependent : Bool)
    (prev_import_back_call : Option UniqueInstruction) :
    Except SliceError (Bool × Bool × SlicingContext × TraceStack) :=
  if call ∧ code_object_dependent then
    if import_start then
      match prev_import_back_call with
      | none => .error .attributeError
      | some ibc => do
        let ctx := { ctx with DS := ctx.DS ++ [ibc.set_in_slice] }
        let se ← stack_effect ibc.opcode none false
        let (ts, _) ← ts.update_pop_operations se.1.toNat ibc true
        .ok (true, false, ctx, ts)
    else .ok (true, false, ctx, ts)
  else .ok (false, code_object_dependent, ctx, ts)

/-- The implicit stack dependency (`dynamic_slicer.py`, lines 222-225):
with simulation on, pop the pushed producers and merge the dependency
flag; `include_use` keeps its initial `true` otherwise. -/
def stack_push_dep (ts : TraceStack) (stack_simulation : Bool)
    (pushes : Int) (returned : Bool) (imp_data_dep : Bool) :
    Except SliceError (TraceStack × Bool × Bool) :=
  if stack_simulation then do
    let (ts, stack_dep, inc) ← ts.update_push_operations pushes.toNat
      returned
    .ok (ts, imp_data_dep || stack_dep, inc)
  else .ok (ts, imp_data_dep, true)

/-- The trace-event consumption of each iteration (`dynamic_slicer.py`,
lines 163-166): traced opcodes consume one event at the current trace
position (the `IndexError` of an exhausted trace propagates). -/
def step_consume_trace (env : SliceEnv) (traced : Bool)
    (trace_position : Int) :
    Except SliceError (Option ExecutedInstruction × Int) :=
  if traced then
    match pyListGet env.executed_instructions trace_position with
    | none => .error .indexError
    | some e => .ok (some e, trace_position - 1)
  else .ok (none, trace_position)

/-- The dependency analyses of each iteration (`dynamic_slicer.py`, lines
200-239): control dependency, explicit data dependency, the
method-call/import block, the implicit stack dependency, and the `in_slice` /
`code_object_dependent` bookkeeping.  `uncondTaken` is
`last_state.jump and last_state.last_instr.is_uncond_jump()` (lines
238-239). -/
def step_dependencies (env : SliceEnv) (ctx : SlicingContext)
    (ts : TraceStack) (last_unique_instr : UniqueInstruction)
    (last_traced_instr : Option ExecutedInstruction)
    (last_state : LastInstrState) (code_object_dependent0 : Bool)
    (prev_import_back_call : Option UniqueInstruction) (pushes : Int)
    (stack_simulation : Bool) (code_object_id : Int) (uncondTaken : Bool) :
    Except SliceError
      (Bool × Bool × Bool × Finset String × SlicingContext × TraceStack) := do
  -- line 200: control dependency
  let (control_dependency, ctx) :=
    check_control_dependency env.cdgSucc ctx last_unique_instr
      code_object_id
  -- lines 206-208: explicit data dependency (rebinds
  -- `new_attribute_object_uses`)
  let (exp_data_dep, new_attribute_object_uses, ctx) ←
    check_explicit_data_dependency env.isModuleCO ctx last_unique_instr
      last_traced_instr
  -- lines 211-220: dependency via method call / import back call
  let (imp_data_dep, code_object_dependent, ctx, ts) ←
    import_call_dep ctx ts last_state.call last_state.import_start
      code_object_dependent0 prev_import_back_call
  -- lines 222-225: implicit dependency over the shadow stack
  let (ts, imp_data_dep, include_use) ←
    stack_push_dep ts stack_simulation pushes last_state.returned
      imp_data_dep
  -- lines 226-227
  let code_object_dependent :=
    if last_state.returned then false else code_object_dependent
  -- lines 229-233
  let dep := control_dependency || exp_data_dep || imp_data_dep
  let code_object_dependent :=
    if dep ∧ ¬last_state.call then true else code_object_dependent
  -- lines 238-239: unconditional jumps that were taken
  let in_slice := dep || uncondTaken
  .ok (in_slice, include_use, code_object_dependent,
       new_attribute_object_uses, ctx, ts)

/-- The emission block of each iteration (`dynamic_slicer.py`, lines
245-255): append the instruction to `DS` when in-slice (the appended
object is the one marked in-slice by the `update_pop_operations` call of
line 255 exactly when stack simulation is on — aliasing), register uses
and control dependencies, and push the instruction for future
consumers. -/
def step_emit (env : SliceEnv) (ctx : SlicingContext) (ts : TraceStack)
    (last_unique_instr : UniqueInstruction)
    (last_traced_instr : Option ExecutedInstruction)
    (in_slice include_use stack_simulation : Bool) (pops : Int)
    (code_object_id : Int) :
    Except SliceError (SlicingContext × TraceStack) := do
  let emitted :=
    if stack_simulation ∧ in_slice then last_unique_instr.set_in_slice
    else last_unique_instr
  let ctx :=
    if in_slice then { ctx with DS := ctx.DS ++ [emitted] } else ctx
  -- lines 248-249: register uses
  let ctx ←
    if in_slice ∧ last_unique_instr.is_use ∧ include_use then
      add_uses env.isModuleCO env.codeMeta env.chainFuel ctx
        last_traced_instr
    else pure ctx
  -- lines 251-252: register control dependencies
  let ctx :=
    if in_slice then
      add_control_dependencies env.cdgPred ctx emitted code_object_id
    else ctx
  -- lines 254-255: push the instruction for future consumers
  let ts ←
    if stack_simulation then do
      let (ts2, _) ← ts.update_pop_operations pops.toNat last_unique_instr
        in_slice
      pure ts2
    else pure ts
  .ok (ctx, ts)

/-- The body of one iteration of the `while True` loop, after the
reconstructor reported a predecessor instruction `li` (`dynamic_slicer.py`,
lines 160-260).  The wall-clock/timeout check of lines 259-260 sits at the
END of the body, mirroring the source. -/
def slice_step_cont (env : SliceEnv) (deadline : Int) (st : SliceState)
    (last_state : LastInstrState) (li : PyInstr) :
    Except SliceError SliceState := do
  -- lines 150-152: exceptions disable stack simulation
  let stack_simulation :=
    if last_state.exception then false else st.stack_simulation
  -- lines 160-161
  let last_unique_instr ←
    create_unique_instruction env last_state.file li
      last_state.code_object_id last_state.basic_block_id last_state.offset
  -- lines 163-166: consume one trace event for traced opcodes
  let (last_traced_instr, trace_position) ←
    step_consume_trace env (is_traced_instruction li.opcode)
      st.trace_position
  -- lines 171-188: stack housekeeping
  let (prev_import_back_call, ts, attribute_variables, import_back_call,
       stack_simulation) ←
    stack_housekeeping st.trace_stack st.context.attribute_variables
      st.new_attribute_object_uses last_state last_state.code_object_id
      stack_simulation
  let ctx := { st.context with attribute_variables := attribute_variables }
  -- lines 190-195: stack-effect query (uncertainty caught)
  let (pops, pushes, stack_simulation) ←
    effect_query st.pops st.pushes stack_simulation
      last_unique_instr.opcode last_unique_instr.dis_arg last_state.jump
  -- lines 200-239: the dependency analyses
  let (in_slice, include_use, code_object_dependent,
       new_attribute_object_uses, ctx, ts) ←
    step_dependencies env ctx ts last_unique_instr last_traced_instr
      last_state st.code_object_dependent prev_import_back_call pushes
      stack_simulation last_state.code_object_id
      (last_state.jump && isUncondJump li.opcode)
  -- lines 245-255: emission
  let (ctx, ts) ←
    step_emit env ctx ts last_unique_instr last_traced_instr in_slice
      include_use stack_simulation pops last_state.code_object_id
  -- lines 257-260: rotate and check the wall clock against the deadline
  if env.clock st.clockIdx > deadline then .error .slicingTimeout
  else
    .ok { file := last_state.file, curr_instr := li,
          trace_position := trace_position, offset := last_state.offset,
          code_object_id := last_state.code_object_id,
          basic_block_id := last_state.basic_block_id,
          stack_simulation := stack_simulation, trace_stack := ts,
          context := ctx, code_object_dependent := code_object_dependent,
          new_attribute_object_uses := new_attribute_object_uses,
          import_back_call := import_back_call, pops := pops,
          pushes := pushes, clockIdx := st.clockIdx + 1 }

/-- One iteration of the `while True` loop of `DynamicSlicer.slice`
(`dynamic_slicer.py`, lines 138-260).  `.inr` is the `return` of lines
153-158; `.inl` continues with the next state. -/
def slice_step (env : SliceEnv) (deadline : Int) (st : SliceState) :
    Except SliceError (SliceState ⊕ DynamicSlice) :=
  -- lines 142-148: ask the reconstructor for the last instruction
  match env.get_last_instruction
    { file := st.file, instr := st.curr_instr,
      trace_pos := st.trace_position, offset := st.offset,
      code_object_id := st.code_object_id,
      basic_block_id := st.basic_block_id,
      import_back_call := st.import_back_call } with
  | .error f => .error f.toSliceError
  | .ok last_state =>
    match last_state.last_instr with
    | none =>
      -- lines 153-158: flow exhausted, return the de-duplicated slice
      .ok (.inr { origin_name := env.test_id
                  sliced_instructions := pyDedup st.context.DS.reverse })
    | some li =>
      Except.map Sum.inl (slice_step_cont env deadline st last_state li)

/-- The `while True` loop, fuel-indexed (`.error .outOfFuel` stands for a
run longer than the fuel; every `.ok` result is a result of the Python
loop). -/
def slice_loop (env : SliceEnv) (deadline : Int) :
    Nat → SliceState → Except SliceError DynamicSlice
  | 0, _ => .error .outOfFuel
  | fuel + 1, st =>
    match slice_step env deadline st with
    | .error e => .error e
    | .ok (.inr res) => .ok res
    | .ok (.inl st') => slice_loop env deadline fuel st'

/-- `DynamicSlicer.slice` (`dynamic_slicer.py`, lines 84-260):
initialisation (lines 99-136) followed by the loop.  Note that the
stack-effect query of line 120 is NOT guarded by a `try`: an
`UncertainStackEffectException` raised for the criterion's own opcode
propagates to the caller. -/
def slice (env : SliceEnv) (criterion : SlicingCriterion)
    (trace_position : Int) (fuel : Nat) : Except SliceError DynamicSlice := do
  -- lines 99-100
  let trace_position ←
    if trace_position < 0 then
      match find_trace_position env.executed_instructions
        criterion.unique_instr criterion.occurrence with
      | .error _ => .error .valueError
      | .ok p => pure p
    else pure trace_position
  -- lines 107-113
  let last_ex_instruction := criterion.unique_instr
  let file := last_ex_instruction.file
  let code_object_id := last_ex_instruction.code_object_id
  let basic_block_id := last_ex_instruction.node_id
  let offset := last_ex_instruction.offset
  let curr_instr ←
    match env.locate_unique last_ex_instruction code_object_id
      basic_block_id with
    | none => .error .instructionNotFound
    | some i => pure i
  -- lines 117-122: prime the shadow stack (unguarded stack-effect query)
  let trace_stack := TraceStack.initial
  let (pops, pushes) ←
    stack_effect last_ex_instruction.opcode last_ex_instruction.dis_arg false
  let (trace_stack, _, _) ←
    trace_stack.update_push_operations pushes.toNat false
  let (trace_stack, critMarked) ←
    trace_stack.update_pop_operations pops.toNat last_ex_instruction true
  -- lines 124-130: initial context; the appended criterion is the object
  -- marked in-slice by the update_pop_operations call above (aliasing)
  let ctx := { SlicingContext.initial with DS := [critMarked] }
  let ctx :=
    if criterion.global_variables ≠ [] then
      { ctx with
        D_global :=
          criterion.global_variables.foldl (fun s t => insert t s)
            ctx.D_global }
    else ctx
  let ctx := add_control_dependencies env.cdgPred ctx critMarked
    code_object_id
  -- lines 132-136
  let deadline := env.clock 0 + env.max_slicing_time
  slice_loop env deadline fuel
    { file := file, curr_instr := curr_instr,
      trace_position := trace_position, offset := offset,
      code_object_id := code_object_id, basic_block_id := basic_block_id,
      stack_simulation := true, trace_stack := trace_stack, context := ctx,
      code_object_dependent := false, new_attribute_object_uses := ∅,
      import_back_call := none, pops := pops, pushes := pushes,
      clockIdx := 1 }

/-! # Step lemmas for the slicing loop -/

theorem stack_effect_arg_none_error (op : Nat) (e : SliceError)
    (h : stack_effect_arg_none op = .error e) :
    e = .typeError ∨ e = .valueError := by
  unfold stack_effect_arg_none at h
  split at h
  · injection h with h; exact Or.inl h.symm
  · injection h with h; exact Or.inr h.symm

theorem stack_effect_arg_some_error (op : Nat) (a : Int) (e : SliceError)
    (h : stack_effect_arg_some op a = .error e) : e = .valueError := by
  delta stack_effect_arg_some at h
  by_cases c1 : op = UNPACK_SEQUENCE
  · rw [if_pos c1] at h; exact Except.noConfusion h
  rw [if_neg c1] at h
  by_cases c2 : op = UNPACK_EX
  · rw [if_pos c2] at h; exact Except.noConfusion h
  rw [if_neg c2] at h
  by_cases c3 : op = BUILD_TUPLE ∨ op = BUILD_LIST ∨ op = BUILD_SET ∨
    op = BUILD_STRING
  · rw [if_pos c3] at h; exact Except.noConfusion h
  rw [if_neg c3] at h
  by_cases c4 : op = BUILD_LIST_UNPACK ∨ op = BUILD_TUPLE_UNPACK ∨
    op = BUILD_TUPLE_UNPACK_WITH_CALL ∨ op = BUILD_SET_UNPACK ∨
    op = BUILD_MAP_UNPACK ∨ op = BUILD_MAP_UNPACK_WITH_CALL
  · rw [if_pos c4] at h; exact Except.noConfusion h
  rw [if_neg c4] at h
  by_cases c5 : op = BUILD_MAP
  · rw [if_pos c5] at h; exact Except.noConfusion h
  rw [if_neg c5] at h
  by_cases c6 : op = BUILD_CONST_KEY_MAP
  · rw [if_pos c6] at h; exact Except.noConfusion h
  rw [if_neg c6] at h
  by_cases c7 : op = RAISE_VARARGS
  · rw [if_pos c7] at h; exact Except.noConfusion h
  rw [if_neg c7] at h
  by_cases c8 : op = CALL_FUNCTION
  · rw [if_pos c8] at h; exact Except.noConfusion h
  rw [if_neg c8] at h
  by_cases c9 : op = CALL_METHOD
  · rw [if_pos c9] at h; exact Except.noConfusion h
  rw [if_neg c9] at h
  by_cases c10 : op = CALL_FUNCTION_KW
  · rw [if_pos c10] at h; exact Except.noConfusion h
  rw [if_neg c10] at h
  by_cases c11 : op = CALL_FUNCTION_EX
  · rw [if_pos c11] at h; exact Except.noConfusion h
  rw [if_neg c11] at h
  by_cases c12 : op = MAKE_FUNCTION
  · rw [if_pos c12] at h; exact Except.noConfusion h
  rw [if_neg c12] at h
  by_cases c13 : op = BUILD_SLICE
  · rw [if_pos c13] at h
    by_cases c14 : a = 3
    · rw [if_pos c14] at h; exact Except.noConfusion h
    · rw [if_neg c14] at h; exact Except.noConfusion h
  rw [if_neg c13] at h
  injection h with h
  exact h.symm

theorem stack_effect_jump_error (op : Nat) (arg : Option Int) (jump : Bool)
    (e : SliceError) (h : stack_effect_jump op arg jump = .error e) :
    e = .typeError ∨ e = .valueError := by
  unfold stack_effect_jump at h
  repeat' split at h
  all_goals first
    | exact Except.noConfusion h
    | exact stack_effect_arg_none_error _ _ h
    | exact Or.inr (stack_effect_arg_some_error _ _ _ h)

theorem stack_effect_uncertain_iff (op : Nat) (arg : Option Int)
    (jump : Bool) :
    stack_effect op arg jump = .error .uncertainStackEffect ↔
      op ∈ UNCERTAIN := by
  by_cases h : op ∈ UNCERTAIN
  · simp [stack_effect, h]
  · simp only [stack_effect, if_neg h]
    constructor
    · intro heq
      exfalso
      split at heq
      · exact Except.noConfusion heq
      · rcases stack_effect_jump_error _ _ _ _ heq with h1 | h1 <;>
          exact SliceError.noConfusion h1
    · intro hm
      exact absurd hm h

theorem stack_effect_error_mem (op : Nat) (arg : Option Int) (jump : Bool)
    (e : SliceError) (h : stack_effect op arg jump = .error e) :
    e = .uncertainStackEffect ∨ e = .valueError ∨ e = .typeError := by
  unfold stack_effect at h
  split at h
  · injection h with h; exact Or.inl h.symm
  · split at h
    · exact Except.noConfusion h
    · rcases stack_effect_jump_error _ _ _ _ h with h1 | h1
      · exact Or.inr (Or.inr h1)
      · exact Or.inr (Or.inl h1)

theorem effect_query_error (p q : Int) (sim : Bool) (op : Nat)
    (arg : Option Int) (jump : Bool) (e : SliceError)
    (h : effect_query p q sim op arg jump = .error e) :
    e = .valueError ∨ e = .typeError := by
  unfold effect_query at h
  split at h
  · cases h
  · cases h
  · rename_i e' he' hne
    injection h with h
    subst h
    rcases stack_effect_error_mem op arg jump _ hne with h1 | h1 | h1
    · exact absurd h1 he'
    · exact Or.inl h1
    · exact Or.inr h1

theorem effect_query_uncertain (p q : Int) (sim : Bool) (op : Nat)
    (arg : Option Int) (jump : Bool) :
    effect_query p q sim op arg jump ≠ .error .uncertainStackEffect := by
  intro h
  rcases effect_query_error p q sim op arg jump _ h with h1 | h1 <;>
    cases h1

theorem get_import_frame_error (ts : TraceStack) (e : SliceError)
    (h : ts.get_import_frame = .error e) : e = .indexError := by
  unfold TraceStack.get_import_frame at h
  split at h
  · injection h with h; exact h.symm
  · cases h

theorem set_attribute_uses_error (ts : TraceStack) (u : Finset String)
    (e : SliceError) (h : ts.set_attribute_uses u = .error e) :
    e = .indexError := by
  unfold TraceStack.set_attribute_uses at h
  split at h
  · injection h with h; exact h.symm
  · cases h

theorem set_import_frame_error (ts : TraceStack)
    (i : Option UniqueInstruction) (e : SliceError)
    (h : ts.set_import_frame i = .error e) : e = .indexError := by
  unfold TraceStack.set_import_frame at h
  split at h
  · injection h with h; exact h.symm
  · cases h

theorem get_attribute_uses_error (ts : TraceStack) (e : SliceError)
    (h : ts.get_attribute_uses = .error e) : e = .indexError := by
  unfold TraceStack.get_attribute_uses at h
  split at h
  · injection h with h; exact h.symm
  · cases h

theorem pop_stack_error (ts : TraceStack) (e : SliceError)
    (h : ts.pop_stack = .error e) :
    e = .indexError ∨ e = .assertionError := by
  unfold TraceStack.pop_stack at h
  repeat' split at h
  all_goals simp_all

theorem update_push_operations_error (ts : TraceStack) (n : Nat) (r : Bool)
    (e : SliceError) (h : ts.update_push_operations n r = .error e) :
    e = .indexError := by
  unfold TraceStack.update_push_operations at h
  repeat' split at h
  all_goals simp_all [pure, Except.pure, bind, Except.bind]

theorem update_pop_operations_error (ts : TraceStack) (n : Nat)
    (i : UniqueInstruction) (s : Bool) (e : SliceError)
    (h : ts.update_pop_operations n i s = .error e) : e = .indexError := by
  unfold TraceStack.update_pop_operations at h
  repeat' split at h
  all_goals simp_all

theorem update_pop_operations_marked (ts : TraceStack) (n : Nat)
    (i : UniqueInstruction) (ts' : TraceStack) (m : UniqueInstruction)
    (h : ts.update_pop_operations n i true = .ok (ts', m)) :
    m = i.set_in_slice := by
  unfold TraceStack.update_pop_operations at h
  repeat' split at h
  all_goals first
    | exact Except.noConfusion h
    | (injection h with h; exact ((Prod.mk.injEq _ _ _ _).mp h).2.symm)
    | simp_all

theorem create_unique_instruction_error (env : SliceEnv) (f : String)
    (i : PyInstr) (co nd off : Int) (e : SliceError)
    (h : create_unique_instruction env f i co nd off = .error e) :
    e = .instructionNotFound := by
  unfold create_unique_instruction at h
  split at h
  · injection h with h; exact h.symm
  · exact Except.noConfusion h

theorem step_consume_trace_error (env : SliceEnv) (t : Bool) (tp : Int)
    (e : SliceError) (h : step_consume_trace env t tp = .error e) :
    e = .indexError := by
  unfold step_consume_trace at h
  repeat' split at h
  all_goals first
    | (injection h with h; exact h.symm)
    | exact Except.noConfusion h

theorem variable_def_cover_error (m : Int → Bool) (ctx : SlicingContext)
    (base : ExecBase) (an : String) (aa : Int) (oc : Bool) (e : SliceError)
    (h : variable_def_cover m ctx base an aa oc = .error e) :
    e = .valueError := by
  unfold variable_def_cover at h
  repeat' split at h
  all_goals first
    | (injection h with h; exact h.symm)
    | exact Except.noConfusion h

/-- The nine memory-def opcodes the variable-definition branch chain
handles without raising. -/
def MemoryDefBranchOpcode (op : Nat) : Prop :=
  op = STORE_FAST ∨ op = DELETE_FAST ∨ op = STORE_NAME ∨ op = DELETE_NAME ∨
  op = STORE_GLOBAL ∨ op = DELETE_GLOBAL ∨ op = STORE_DEREF ∨
  op = DELETE_DEREF ∨ op = IMPORT_NAME

theorem variable_def_cover_ok (m : Int → Bool) (ctx : SlicingContext)
    (base : ExecBase) (an : String) (aa : Int) (oc : Bool)
    (hop : MemoryDefBranchOpcode base.opcode) :
    ∃ c ctx', variable_def_cover m ctx base an aa oc = .ok (c, ctx') := by
  unfold variable_def_cover
  rcases hop with h | h | h | h | h | h | h | h | h <;> rw [h]
  · exact ⟨_, _, rfl⟩
  · exact ⟨_, _, rfl⟩
  · cases hm : m base.code_object_id <;> simp only [hm] <;>
      exact ⟨_, _, rfl⟩
  · cases hm : m base.code_object_id <;> simp only [hm] <;>
      exact ⟨_, _, rfl⟩
  · exact ⟨_, _, rfl⟩
  · exact ⟨_, _, rfl⟩
  · exact ⟨_, _, rfl⟩
  · exact ⟨_, _, rfl⟩
  · by_cases hc : aa ≠ 0 ∧ pyHex aa ∈ ctx.D_addresses ∧ oc = true
    · rw [if_pos hc]; exact ⟨_, _, rfl⟩
    · rw [if_neg hc]; exact ⟨_, _, rfl⟩

theorem variable_def_cover_shape (m : Int → Bool) (ctx : SlicingContext)
    (base : ExecBase) (an : String) (aa : Int) (oc : Bool) (c : Bool)
    (ctx' : SlicingContext)
    (h : variable_def_cover m ctx base an aa oc = .ok (c, ctx')) :
    ctx'.D_attributes = ctx.D_attributes ∧
    ctx'.attribute_variables = ctx.attribute_variables ∧
    ctx'.DS = ctx.DS ∧ ctx'.S_C = ctx.S_C := by
  unfold variable_def_cover at h
  repeat' split at h
  all_goals
    try (simp only [pure, Except.pure, Except.ok.injEq, Prod.mk.injEq] at h)
  all_goals try (obtain ⟨-, h2⟩ := h; subst h2; simp)
  all_goals simp at h

/-- Case-split predicate on an `Except` result: `Q` must hold of an error,
`P` of a success. -/
def exceptSpec {ε α : Type _} (Q : ε → Prop) (P : α → Prop) :
    Except ε α → Prop
  | .error e => Q e
  | .ok a => P a

theorem exceptSpec_ok {ε α : Type _} {Q : ε → Prop} {P : α → Prop}
    {r : Except ε α} (h : exceptSpec Q P r) {a : α} (ha : r = .ok a) :
    P a := by
  subst ha
  exact h

theorem exceptSpec_error {ε α : Type _} {Q : ε → Prop} {P : α → Prop}
    {r : Except ε α} (h : exceptSpec Q P r) {e : ε} (he : r = .error e) :
    Q e := by
  subst he
  exact h

theorem check_explicit_spec (m : Int → Bool) (ctx : SlicingContext)
    (u : UniqueInstruction) (t : Option ExecutedInstruction) :
    exceptSpec (fun e => e = .valueError) (fun r => r.2.2.DS = ctx.DS)
      (check_explicit_data_dependency m ctx u t) := by
  unfold check_explicit_data_dependency
  simp only [bind, Except.bind]
  split
  · exact rfl
  · split
    any_goals exact rfl
    · rename_i base an aa mt oc
      cases hv : variable_def_cover m ctx base an aa oc with
      | error e =>
        dsimp only
        exact variable_def_cover_error m ctx base an aa oc e hv
      | ok v =>
        obtain ⟨c1, ctx1⟩ := v
        dsimp only
        have hds1 : ctx1.DS = ctx.DS :=
          (variable_def_cover_shape m ctx base an aa oc c1 ctx1 hv).2.2.1
        repeat' split
        all_goals exact hds1
    · repeat' split
      all_goals exact rfl

theorem check_control_dependency_DS (f : Int → Int → List Int)
    (ctx : SlicingContext) (u : UniqueInstruction) (co : Int) :
    (check_control_dependency f ctx u co).2.DS = ctx.DS := by
  unfold check_control_dependency
  split <;> rfl

theorem add_control_dependencies_DS (f : Int → Int → List (Int × Bool))
    (ctx : SlicingContext) (u : UniqueInstruction) (co : Int) :
    (add_control_dependencies f ctx u co).DS = ctx.DS := by
  simp only [add_control_dependencies]
  split <;> rfl

theorem import_call_dep_spec (ctx : SlicingContext) (ts : TraceStack)
    (call imp cod : Bool) (pibc : Option UniqueInstruction) :
    exceptSpec (fun e => e ≠ .slicingTimeout)
      (fun r => ∃ t, r.2.2.1.DS = ctx.DS ++ t)
      (import_call_dep ctx ts call imp cod pibc) := by
  unfold import_call_dep
  simp only [bind, Except.bind]
  split
  · split
    · split
      · exact fun hc => SliceError.noConfusion hc
      · rename_i ibc
        cases hse : stack_effect ibc.opcode none false with
        | error e =>
          dsimp only
          rcases stack_effect_error_mem _ _ _ _ hse with h1 | h1 | h1 <;>
            (subst h1; exact fun hc => SliceError.noConfusion hc)
        | ok se =>
          dsimp only
          cases hup : ts.update_pop_operations se.1.toNat ibc true with
          | error e =>
            dsimp only
            have he := update_pop_operations_error _ _ _ _ _ hup
            subst he
            exact fun hc => SliceError.noConfusion hc
          | ok v =>
            obtain ⟨ts2, mk2⟩ := v
            dsimp only
            exact ⟨[ibc.set_in_slice], rfl⟩
    · exact ⟨[], (List.append_nil _).symm⟩
  · exact ⟨[], (List.append_nil _).symm⟩

theorem stack_push_dep_spec (ts : TraceStack) (sim : Bool) (pushes : Int)
    (r d : Bool) :
    exceptSpec (fun e => e ≠ .slicingTimeout) (fun _ => True)
      (stack_push_dep ts sim pushes r d) := by
  unfold stack_push_dep
  simp only [bind, Except.bind]
  split
  · cases hup : ts.update_push_operations pushes.toNat r with
    | error e =>
      dsimp only
      have he := update_push_operations_error _ _ _ _ hup
      subst he
      exact fun hc => SliceError.noConfusion hc
    | ok v =>
      obtain ⟨ts2, d2, i2⟩ := v
      dsimp only
      exact trivial
  · exact trivial

theorem nonlocalChain_error (cm : Int → Option (Option Int × List String)) :
    ∀ (fuel : Nat) (an : String) (cur : Option Int) (acc : List Int)
      (e : SliceError), nonlocalChain cm fuel an cur acc = .error e →
      e = .keyError ∨ e = .outOfFuel := by
  intro fuel
  induction fuel with
  | zero =>
    intro an cur acc e h
    unfold nonlocalChain at h
    injection h with h
    exact Or.inr h.symm
  | succ n ih =>
    intro an cur acc e h
    unfold nonlocalChain at h
    repeat' split at h
    all_goals first
      | (injection h with h; exact Or.inl h.symm)
      | exact Except.noConfusion h
      | exact ih _ _ _ _ h

theorem add_uses_spec (m : Int → Bool)
    (cm : Int → Option (Option Int × List String)) (fuel : Nat)
    (ctx : SlicingContext) (t : Option ExecutedInstruction) :
    exceptSpec (fun e => e ≠ .slicingTimeout) (fun c => c.DS = ctx.DS)
      (add_uses m cm fuel ctx t) := by
  unfold add_uses
  simp only [bind, Except.bind]
  split
  any_goals exact rfl
  · repeat' split
    all_goals try exact rfl
    all_goals try (exact fun hc => SliceError.noConfusion hc)
    all_goals
      (rename_i hn
       rcases nonlocalChain_error cm _ _ _ _ _ hn with h1 | h1 <;>
         (subst h1; exact fun hc => SliceError.noConfusion hc))
  · repeat' split
    all_goals exact rfl

theorem stack_housekeeping_spec (ts0 : TraceStack) (av0 nu : Finset String)
    (ls : LastInstrState) (co : Int) (sim : Bool) :
    exceptSpec (fun e => e ≠ .slicingTimeout)
      (fun r =>
        ((ls.call = true ∨ ls.import_start = true) → sim = false →
          r.2.2.2.2 = true) ∧
        (ls.call = false → ls.import_start = false → r.2.2.2.2 = sim))
      (stack_housekeeping ts0 av0 nu ls co sim) := by
  unfold stack_housekeeping
  simp only [bind, Except.bind, pure, Except.pure]
  repeat' split
  all_goals try (refine ⟨fun hb hs => ?_, fun hc hi => ?_⟩ <;> simp_all)
  all_goals
    (rename_i hx
     first
       | (have he := get_import_frame_error _ _ hx; subst he
          exact fun hc => SliceError.noConfusion hc)
       | (have he := set_attribute_uses_error _ _ _ hx; subst he
          exact fun hc => SliceError.noConfusion hc)
       | (have he := set_import_frame_error _ _ _ hx; subst he
          exact fun hc => SliceError.noConfusion hc)
       | (have he := get_attribute_uses_error _ _ hx; subst he
          exact fun hc => SliceError.noConfusion hc)
       | (rcases pop_stack_error _ _ hx with h1 | h1 <;>
           (subst h1; exact fun hc => SliceError.noConfusion hc)))

theorem step_dependencies_spec (env : SliceEnv) (ctx : SlicingContext)
    (ts : TraceStack) (lui : UniqueInstruction)
    (lti : Option ExecutedInstruction) (ls : LastInstrState) (cod : Bool)
    (pibc : Option UniqueInstruction) (pushes : Int) (sim : Bool) (co : Int)
    (ut : Bool) :
    exceptSpec (fun e => e ≠ .slicingTimeout)
      (fun r => ∃ t, r.2.2.2.2.1.DS = ctx.DS ++ t)
      (step_dependencies env ctx ts lui lti ls cod pibc pushes sim co ut) := by
  unfold step_dependencies
  simp only [bind, Except.bind]
  cases hcc : check_control_dependency env.cdgSucc ctx lui co with
  | mk cd ctx1 =>
    dsimp only
    have hds1 : ctx1.DS = ctx.DS := by
      have h0 := check_control_dependency_DS env.cdgSucc ctx lui co
      rw [hcc] at h0
      exact h0
    cases hce : check_explicit_data_dependency env.isModuleCO ctx1 lui lti with
    | error e =>
      dsimp only
      have he := exceptSpec_error (check_explicit_spec env.isModuleCO ctx1 lui lti) hce
      subst he
      exact fun hc => SliceError.noConfusion hc
    | ok v =>
      obtain ⟨ed, naou, ctx2⟩ := v
      dsimp only
      have hds2 : ctx2.DS = ctx1.DS :=
        exceptSpec_ok (check_explicit_spec env.isModuleCO ctx1 lui lti) hce
      cases hicd : import_call_dep ctx2 ts ls.call ls.import_start cod pibc with
      | error e =>
        dsimp only
        exact exceptSpec_error
          (import_call_dep_spec ctx2 ts ls.call ls.import_start cod pibc) hicd
      | ok v2 =>
        obtain ⟨idp, cod2, ctx3, ts2⟩ := v2
        dsimp only
        obtain ⟨t3, hds3⟩ := exceptSpec_ok
          (import_call_dep_spec ctx2 ts ls.call ls.import_start cod pibc) hicd
        cases hsp : stack_push_dep ts2 sim pushes ls.returned idp with
        | error e =>
          dsimp only
          exact exceptSpec_error
            (stack_push_dep_spec ts2 sim pushes ls.returned idp) hsp
        | ok v3 =>
          obtain ⟨ts3, idp2, inc⟩ := v3
          dsimp only
          refine ⟨t3, ?_⟩
          rw [hds3, hds2, hds1]

/-- `add_control_dependencies` guarded by a condition preserves `DS`. -/
theorem add_control_dependencies_ite_DS (c : Prop) [Decidable c]
    (f : Int → Int → List (Int × Bool)) (cx : SlicingContext)
    (u : UniqueInstruction) (co : Int) :
    (if c then add_control_dependencies f cx u co else cx).DS = cx.DS := by
  split
  · exact add_control_dependencies_DS f cx u co
  · rfl

theorem step_emit_spec (env : SliceEnv) (ctx : SlicingContext)
    (ts : TraceStack) (lui : UniqueInstruction)
    (lti : Option ExecutedInstruction) (ins inc sim : Bool) (pops : Int)
    (co : Int) :
    exceptSpec (fun e => e ≠ .slicingTimeout)
      (fun r => ∃ t, r.1.DS = ctx.DS ++ t)
      (step_emit env ctx ts lui lti ins inc sim pops co) := by
  unfold step_emit
  simp only [bind, Except.bind, pure, Except.pure]
  generalize hg : (if ins = true then
      { ctx with
          DS := ctx.DS ++
            [if sim = true ∧ ins = true then lui.set_in_slice else lui] }
    else ctx) = ctx1
  have hds1 : ∃ t0, ctx1.DS = ctx.DS ++ t0 := by
    rw [← hg]
    split
    · exact ⟨_, rfl⟩
    · exact ⟨[], (List.append_nil _).symm⟩
  obtain ⟨t0, ht0⟩ := hds1
  by_cases hc1 : ins = true ∧ lui.is_use = true ∧ inc = true
  · rw [if_pos hc1]
    cases hau : add_uses env.isModuleCO env.codeMeta env.chainFuel ctx1
        lti with
    | error e =>
      dsimp only
      exact exceptSpec_error
        (add_uses_spec env.isModuleCO env.codeMeta env.chainFuel ctx1 lti)
        hau
    | ok ctxU =>
      dsimp only
      have hdsU : ctxU.DS = ctx1.DS :=
        exceptSpec_ok
          (add_uses_spec env.isModuleCO env.codeMeta env.chainFuel ctx1 lti)
          hau
      by_cases hc2 : sim = true
      · rw [if_pos hc2]
        cases hup : ts.update_pop_operations pops.toNat lui ins with
        | error e =>
          dsimp only
          have he := update_pop_operations_error _ _ _ _ _ hup
          subst he
          exact fun hc => SliceError.noConfusion hc
        | ok v =>
          obtain ⟨ts2, mm⟩ := v
          dsimp only
          refine ⟨t0, ?_⟩
          rw [add_control_dependencies_ite_DS, hdsU]
          exact ht0
      · rw [if_neg hc2]
        try dsimp only
        refine ⟨t0, ?_⟩
        rw [add_control_dependencies_ite_DS, hdsU]
        exact ht0
  · rw [if_neg hc1]
    try dsimp only
    by_cases hc2 : sim = true
    · rw [if_pos hc2]
      cases hup : ts.update_pop_operations pops.toNat lui ins with
      | error e =>
        dsimp only
        have he := update_pop_operations_error _ _ _ _ _ hup
        subst he
        exact fun hc => SliceError.noConfusion hc
      | ok v =>
        obtain ⟨ts2, mm⟩ := v
        dsimp only
        refine ⟨t0, ?_⟩
        rw [add_control_dependencies_ite_DS]
        exact ht0
    · rw [if_neg hc2]
      try dsimp only
      refine ⟨t0, ?_⟩
      rw [add_control_dependencies_ite_DS]
      exact ht0

theorem slice_step_cont_spec (env : SliceEnv) (dl : Int) (st : SliceState)
    (ls : LastInstrState) (li : PyInstr) :
    exceptSpec
      (fun e => e = .slicingTimeout → env.clock st.clockIdx > dl)
      (fun st' => (∃ t, st'.context.DS = st.context.DS ++ t) ∧
        env.clock st.clockIdx ≤ dl ∧ st'.clockIdx = st.clockIdx + 1)
      (slice_step_cont env dl st ls li) := by
  unfold slice_step_cont
  simp only [bind, Except.bind]
  cases hcu : create_unique_instruction env ls.file li ls.code_object_id
      ls.basic_block_id ls.offset with
  | error e =>
    dsimp only
    have he := create_unique_instruction_error _ _ _ _ _ _ _ hcu
    subst he
    exact fun hc => absurd hc (fun hh => SliceError.noConfusion hh)
  | ok lui =>
    dsimp only
    cases hct : step_consume_trace env (is_traced_instruction li.opcode)
        st.trace_position with
    | error e =>
      dsimp only
      have he := step_consume_trace_error _ _ _ _ hct
      subst he
      exact fun hc => absurd hc (fun hh => SliceError.noConfusion hh)
    | ok v =>
      obtain ⟨lti, tp⟩ := v
      dsimp only
      cases hhk : stack_housekeeping st.trace_stack
          st.context.attribute_variables st.new_attribute_object_uses ls
          ls.code_object_id
          (if ls.exception then false else st.stack_simulation) with
      | error e =>
        dsimp only
        have hq := exceptSpec_error
          (stack_housekeeping_spec st.trace_stack
            st.context.attribute_variables st.new_attribute_object_uses ls
            ls.code_object_id
            (if ls.exception then false else st.stack_simulation)) hhk
        exact fun hc => absurd hc hq
      | ok v2 =>
        obtain ⟨pibc, ts1, av, ibc, sim1⟩ := v2
        dsimp only
        cases heq : effect_query st.pops st.pushes sim1 lui.opcode
            lui.dis_arg ls.jump with
        | error e =>
          dsimp only
          rcases effect_query_error _ _ _ _ _ _ _ heq with h1 | h1 <;>
            (subst h1;
             exact fun hc => absurd hc (fun hh => SliceError.noConfusion hh))
        | ok v3 =>
          obtain ⟨pops, pushes, sim2⟩ := v3
          dsimp only
          cases hsd : step_dependencies env
              { st.context with attribute_variables := av } ts1 lui lti ls
              st.code_object_dependent pibc pushes sim2 ls.code_object_id
              (ls.jump && isUncondJump li.opcode) with
          | error e =>
            dsimp only
            have hq := exceptSpec_error (step_dependencies_spec env
              { st.context with attribute_variables := av } ts1 lui lti ls
              st.code_object_dependent pibc pushes sim2 ls.code_object_id
              (ls.jump && isUncondJump li.opcode)) hsd
            exact fun hc => absurd hc hq
          | ok v4 =>
            obtain ⟨ins, inc, cod, naou, ctx4, ts4⟩ := v4
            dsimp only
            obtain ⟨t4, hds4⟩ := exceptSpec_ok (step_dependencies_spec env
              { st.context with attribute_variables := av } ts1 lui lti ls
              st.code_object_dependent pibc pushes sim2 ls.code_object_id
              (ls.jump && isUncondJump li.opcode)) hsd
            cases hse : step_emit env ctx4 ts4 lui lti ins inc sim2 pops
                ls.code_object_id with
            | error e =>
              dsimp only
              have hq := exceptSpec_error (step_emit_spec env ctx4 ts4 lui
                lti ins inc sim2 pops ls.code_object_id) hse
              exact fun hc => absurd hc hq
            | ok v5 =>
              obtain ⟨ctx5, ts5⟩ := v5
              dsimp only
              obtain ⟨t5, hds5⟩ := exceptSpec_ok (step_emit_spec env ctx4
                ts4 lui lti ins inc sim2 pops ls.code_object_id) hse
              split
              · rename_i hclk
                exact fun _ => hclk
              · rename_i hclk
                refine ⟨⟨t4 ++ t5, ?_⟩, Int.not_lt.mp hclk, rfl⟩
                rw [hds5, hds4, List.append_assoc]

theorem slice_step_inl_spec (env : SliceEnv) (dl : Int) (st st' : SliceState)
    (h : slice_step env dl st = .ok (.inl st')) :
    (∃ t, st'.context.DS = st.context.DS ++ t) ∧
      env.clock st.clockIdx ≤ dl ∧ st'.clockIdx = st.clockIdx + 1 := by
  unfold slice_step at h
  split at h
  · exact Except.noConfusion h
  · split at h
    · injection h with h
      exact Sum.noConfusion h
    · rename_i gx ls hg ox li hli
      cases hc : slice_step_cont env dl st ls li with
      | error e =>
        simp only [hc, Except.map] at h
        exact Except.noConfusion h
      | ok st'' =>
        simp only [hc, Except.map] at h
        injection h with h
        injection h with h
        subst h
        exact exceptSpec_ok (slice_step_cont_spec env dl st ls li) hc

theorem slice_step_timeout (env : SliceEnv) (dl : Int) (st : SliceState)
    (h : slice_step env dl st = .error .slicingTimeout) :
    env.clock st.clockIdx > dl := by
  unfold slice_step at h
  split at h
  · rename_i gx f hg
    injection h with h
    cases f <;> exact SliceError.noConfusion h
  · split at h
    · exact Except.noConfusion h
    · rename_i gx ls hg ox li hli
      cases hc : slice_step_cont env dl st ls li with
      | error e =>
        simp only [hc, Except.map] at h
        injection h with h
        subst h
        exact exceptSpec_error (slice_step_cont_spec env dl st ls li) hc rfl
      | ok st'' =>
        simp only [hc, Except.map] at h
        exact Except.noConfusion h

theorem slice_step_inr_spec (env : SliceEnv) (dl : Int) (st : SliceState)
    (res : DynamicSlice) (h : slice_step env dl st = .ok (.inr res)) :
    res = { origin_name := env.test_id,
            sliced_instructions := pyDedup st.context.DS.reverse } ∧
      ∀ dl', slice_step env dl' st = .ok (.inr res) := by
  unfold slice_step at h
  split at h
  · exact Except.noConfusion h
  · rename_i gx ls hg
    split at h
    · rename_i ox hli
      injection h with h
      injection h with h
      constructor
      · exact h.symm
      · intro dl'
        unfold slice_step
        simp only [hg]
        simp only [hli]
        rw [h]
    · rename_i ox li hli
      cases hc : slice_step_cont env dl st ls li with
      | error e =>
        simp only [hc, Except.map] at h
        exact Except.noConfusion h
      | ok st'' =>
        simp only [hc, Except.map] at h
        injection h with h
        exact Sum.noConfusion h

/-- `setIdent` ignores the `in_slice` flag. -/
theorem setIdent_set_in_slice (a b : UniqueInstruction) :
    UniqueInstruction.setIdent a b.set_in_slice =
      UniqueInstruction.setIdent a b := rfl

theorem slice_loop_class (env : SliceEnv) (dl : Int) :
    ∀ (fuel : Nat) (st : SliceState) (res : DynamicSlice),
      slice_loop env dl fuel st = .ok res →
      ∀ x ∈ st.context.DS, ∃ u ∈ res.sliced_instructions,
        UniqueInstruction.setIdent u x = true := by
  intro fuel
  induction fuel with
  | zero =>
    intro st res h x hx
    exact Except.noConfusion h
  | succ n ih =>
    intro st res h x hx
    unfold slice_loop at h
    cases hs : slice_step env dl st with
    | error e =>
      simp only [hs] at h
      exact Except.noConfusion h
    | ok s =>
      cases s with
      | inl st' =>
        simp only [hs] at h
        obtain ⟨⟨t, hds⟩, -, -⟩ := slice_step_inl_spec env dl st st' hs
        exact ih st' res h x (by rw [hds]; exact List.mem_append_left _ hx)
      | inr r =>
        simp only [hs] at h
        injection h with h
        subst h
        obtain ⟨hres, -⟩ := slice_step_inr_spec env dl st r hs
        subst hres
        exact pyDedupGo_preserves_class [] st.context.DS.reverse x
          ⟨x, List.mem_reverse.mpr hx, UniqueInstruction.setIdent_refl x⟩
          rfl

theorem slice_loop_shape (env : SliceEnv) (dl : Int) :
    ∀ (fuel : Nat) (st : SliceState) (res : DynamicSlice),
      slice_loop env dl fuel st = .ok res →
      res.origin_name = env.test_id ∧
        ∃ DS : List UniqueInstruction,
          res.sliced_instructions = pyDedup DS.reverse := by
  intro fuel
  induction fuel with
  | zero =>
    intro st res h
    exact Except.noConfusion h
  | succ n ih =>
    intro st res h
    unfold slice_loop at h
    cases hs : slice_step env dl st with
    | error e =>
      simp only [hs] at h
      exact Except.noConfusion h
    | ok s =>
      cases s with
      | inl st' =>
        simp only [hs] at h
        exact ih st' res h
      | inr r =>
        simp only [hs] at h
        injection h with h
        subst h
        obtain ⟨hres, -⟩ := slice_step_inr_spec env dl st r hs
        subst hres
        exact ⟨rfl, st.context.DS, rfl⟩

theorem slice_ok_elim (env : SliceEnv) (c : SlicingCriterion) (tp : Int)
    (fuel : Nat) (res : DynamicSlice) (h : slice env c tp fuel = .ok res) :
    ∃ st0 : SliceState,
      slice_loop env (env.clock 0 + env.max_slicing_time) fuel st0 =
        .ok res ∧
      st0.context.DS = [c.unique_instr.set_in_slice] := by
  unfold slice at h
  simp only [bind, Except.bind] at h
  split at h
  · cases he : env.executed_instructions with
    | nil =>
      simp only [find_trace_position, he] at h
      exact Except.noConfusion h
    | cons a l =>
      simp only [find_trace_position, he] at h
      exact Except.noConfusion h
  · cases hl : env.locate_unique c.unique_instr c.unique_instr.code_object_id
        c.unique_instr.node_id with
    | none =>
      simp only [hl] at h
      exact Except.noConfusion h
    | some instr =>
      simp only [hl] at h
      cases hse : stack_effect c.unique_instr.opcode c.unique_instr.dis_arg
          false with
      | error e =>
        simp only [hse] at h
        exact Except.noConfusion h
      | ok pp =>
        obtain ⟨pops, pushes⟩ := pp
        simp only [hse] at h
        cases hpu : TraceStack.initial.update_push_operations pushes.toNat
            false with
        | error e =>
          simp only [hpu] at h
          exact Except.noConfusion h
        | ok v =>
          obtain ⟨ts1, d1, i1⟩ := v
          simp only [hpu] at h
          cases hpo : ts1.update_pop_operations pops.toNat c.unique_instr
              true with
          | error e =>
            simp only [hpo] at h
            exact Except.noConfusion h
          | ok v2 =>
            obtain ⟨ts2, mk2⟩ := v2
            simp only [hpo] at h
            have hmk : mk2 = c.unique_instr.set_in_slice :=
              update_pop_operations_marked _ _ _ _ _ hpo
            subst hmk
            refine ⟨_, h, ?_⟩
            dsimp only
            rw [add_control_dependencies_DS]
            split <;> rfl

/-! # Claims -/

/-! ## C4 — `UniqueInstruction` equality and hash -/

/-- Two `UniqueInstruction`s that Python compares equal (same opcode,
argument and line, via the inherited `Instr.__eq__`) but whose claimed key
tuples `(opcode, code_object_id, node_id, offset)` differ. -/
def c4a : UniqueInstruction :=
  { file := "a.py", opcode := LOAD_FAST, arg := .strV "x", lineno := 1,
    code_object_id := 0, node_id := 0, offset := 0, dis_arg := some 0,
    is_jump_target := false, inSliceFlag := false }

def c4b : UniqueInstruction :=
  { c4a with code_object_id := 1 }

/-- C4, counterexample.  The claim says `a == b` iff the tuples
`(opcode, code_object_id, node_id, offset)` are equal.  `UniqueInstruction`
does not override `__eq__`; it inherits `bytecode.Instr`'s, which compares
`(lineno, name, arg)` only.  Here `c4a == c4b` holds in Python although
their claimed tuples differ in `code_object_id`, so the "only if"
direction of the claim is false. -/
theorem c4_counterexample :
    UniqueInstruction.pyEq c4a c4b = true ∧
      c4a.claimedKey ≠ c4b.claimedKey := by
  constructor
  · decide
  · decide

/-- C4, amended: the hash of a `UniqueInstruction` is a function of
exactly the tuple `(opcode, code_object_id, node_id, offset)` (the
`name` hashed in the source determines and is determined by the opcode),
but equality is the one inherited from `bytecode.Instr`: `a == b` iff
`(lineno, opcode, arg)` match; consequently two instructions are identified
during set-based de-duplication iff both the equality key and the hash key
match. -/
theorem c4_eq_and_hash (a b : UniqueInstruction) :
    (UniqueInstruction.pyEq a b = true ↔ a.eqKey = b.eqKey) ∧
    (a.claimedKey = b.claimedKey → a.hashKey = b.hashKey) ∧
    (UniqueInstruction.setIdent a b = true ↔
       a.eqKey = b.eqKey ∧ a.hashKey = b.hashKey) := by
  refine ⟨?_, ?_, ?_⟩
  · simp [UniqueInstruction.pyEq]
  · intro h
    simpa [UniqueInstruction.claimedKey, UniqueInstruction.hashKey] using h
  · simp [UniqueInstruction.setIdent, UniqueInstruction.pyEq]

/-- C4, witness for `c4_eq_and_hash` at concrete inputs (the hypothesis of
the middle conjunct discharged at instructions that differ only in their
`in_slice` flag and disassembly data). -/
theorem c4_eq_and_hash_witness :
    c4a.claimedKey = (c4a.set_in_slice).claimedKey ∧
      c4a.hashKey = (c4a.set_in_slice).hashKey :=
  ⟨by decide, (c4_eq_and_hash c4a c4a.set_in_slice).2.1 (by decide)⟩

/-! ## C8 — `find_trace_position` -/

/-- C8: `DynamicSlicer.find_trace_position` can never return a position.
The source iterates `zip(trace.executed_instructions)` — `zip` applied to
one iterable yields 1-tuples — and unpacks each element into two names, so
any non-empty trace raises `ValueError: not enough values to unpack` at
the first event (before any field of the event is examined, and with the
vacuous line check `ex_instr.lineno == ex_instr.lineno`); an empty trace
falls through to `ValueError("Slicing criterion could not be found in
trace")`.  The claim's described behaviour (return the index of the
`occurrence`-th matching event) is unreachable. -/
theorem c8_find_trace_position_never_finds
    (executed : List ExecutedInstruction) (criterion : UniqueInstruction)
    (occurrence : Int) :
    find_trace_position executed criterion occurrence =
      .error (if executed.isEmpty then
                "Slicing criterion could not be found in trace"
              else "not enough values to unpack (expected 2, got 1)") := by
  cases executed <;> rfl

/-! ## C6 / C10 — `update_push_operations` -/

/-- The condition under which popping the producer `tos` (with the block
stack continuing as `rest`) turns `include_use` off
(`stack_simulation.py`, lines 115-124): an attribute/import load, or an
attribute/subscript store whose next-lower stack entry repeats the same
opcode. -/
def badHead (tos : UniqueInstruction) (rest : List UniqueInstruction) : Bool :=
  (if tos.opcode = STORE_ATTR ∨ tos.opcode = STORE_SUBSCR then
     if rest.length > 0 then
       match rest.head? with
       | some tos1 => decide (tos1.opcode = tos.opcode)
       | none => false
     else false
   else false) ||
  (if tos.opcode = LOAD_ATTR ∨ tos.opcode = DELETE_ATTR ∨
      tos.opcode = IMPORT_FROM then true else false)

theorem pushLoop_cons_in_slice (n : Nat) (tos : UniqueInstruction)
    (rest : List UniqueInstruction) (dep inc : Bool)
    (h : tos.in_slice = true) :
    TraceStack.pushLoop (n + 1) (tos :: rest) dep inc =
      TraceStack.pushLoop n rest true (inc && !badHead tos rest) := by
  simp only [TraceStack.pushLoop, h, if_pos]
  congr 1
  by_cases hs : tos.opcode = STORE_ATTR ∨ tos.opcode = STORE_SUBSCR
  · have hl : ¬(tos.opcode = LOAD_ATTR ∨ tos.opcode = DELETE_ATTR ∨
        tos.opcode = IMPORT_FROM) := by
      rcases hs with hs | hs <;> rw [hs] <;> decide
    simp only [badHead, if_pos hs, if_neg hl, Bool.or_false]
    cases rest with
    | nil => simp
    | cons t1 ts =>
      simp only [List.length_cons, List.head?_cons]
      by_cases ht : t1.opcode = tos.opcode
      · simp [ht]
      · simp [ht]
  · by_cases hl : tos.opcode = LOAD_ATTR ∨ tos.opcode = DELETE_ATTR ∨
        tos.opcode = IMPORT_FROM
    · simp [badHead, hs, hl]
    · simp [badHead, hs, hl]

theorem pushLoop_cons_not_in_slice (n : Nat) (tos : UniqueInstruction)
    (rest : List UniqueInstruction) (dep inc : Bool)
    (h : tos.in_slice = false) :
    TraceStack.pushLoop (n + 1) (tos :: rest) dep inc =
      TraceStack.pushLoop n rest dep inc := by
  simp [TraceStack.pushLoop, h]

theorem pushLoop_dep_true (n : Nat) (bs : List UniqueInstruction)
    (inc : Bool) : (TraceStack.pushLoop n bs true inc).2.1 = true := by
  induction n generalizing bs inc with
  | zero => rfl
  | succ n ih =>
    cases bs with
    | nil => exact ih [] inc
    | cons tos rest =>
      by_cases h : tos.in_slice = true
      · rw [pushLoop_cons_in_slice n tos rest true inc h]
        exact ih rest _
      · rw [pushLoop_cons_not_in_slice n tos rest true inc
          (by simpa using h)]
        exact ih rest inc

theorem pushLoop_dep (n : Nat) (bs : List UniqueInstruction)
    (dep inc : Bool) :
    (TraceStack.pushLoop n bs dep inc).2.1 =
      (dep || (bs.take n).any (·.in_slice)) := by
  induction n generalizing bs dep inc with
  | zero => simp [TraceStack.pushLoop]
  | succ n ih =>
    cases bs with
    | nil =>
      simpa using ih [] dep inc
    | cons tos rest =>
      by_cases h : tos.in_slice = true
      · rw [pushLoop_cons_in_slice n tos rest dep inc h]
        simp [pushLoop_dep_true, h]
      · have h' : tos.in_slice = false := by simpa using h
        rw [pushLoop_cons_not_in_slice n tos rest dep inc h']
        simp [ih, h']

theorem pushLoop_inc_false (n : Nat) (bs : List UniqueInstruction)
    (dep : Bool) : (TraceStack.pushLoop n bs dep false).2.2 = false := by
  induction n generalizing bs dep with
  | zero => rfl
  | succ n ih =>
    cases bs with
    | nil => exact ih [] dep
    | cons tos rest =>
      by_cases h : tos.in_slice = true
      · rw [pushLoop_cons_in_slice n tos rest dep false h]
        simpa using ih rest true
      · rw [pushLoop_cons_not_in_slice n tos rest dep false
          (by simpa using h)]
        exact ih rest dep

/-- The bad-producer positions of the pop loop: index `i` was popped,
holds an in-slice producer, and that producer's opcode (with the stack
below it) turns `include_use` off. -/
def BadAt (bs : List UniqueInstruction) (n : Nat) : Prop :=
  ∃ i, i < n ∧ ∃ h : i < bs.length,
    (bs.get ⟨i, h⟩).in_slice = true ∧
    badHead (bs.get ⟨i, h⟩) (bs.drop (i + 1)) = true

theorem badAt_nil (n : Nat) : ¬ BadAt [] n := by
  rintro ⟨i, _, h, _⟩
  simp at h

theorem badAt_cons (tos : UniqueInstruction) (rest : List UniqueInstruction)
    (n : Nat) :
    BadAt (tos :: rest) (n + 1) ↔
      (tos.in_slice = true ∧ badHead tos rest = true) ∨ BadAt rest n := by
  constructor
  · rintro ⟨i, hin, h, hs, hb⟩
    cases i with
    | zero => exact .inl ⟨hs, hb⟩
    | succ j =>
      refine .inr ⟨j, by omega, by simpa using h, ?_, ?_⟩
      · simpa using hs
      · simpa using hb
  · rintro (⟨hs, hb⟩ | ⟨j, hin, h, hs, hb⟩)
    · exact ⟨0, by omega, by simp, by simpa using hs, by simpa using hb⟩
    · refine ⟨j + 1, by omega, by simpa using h, ?_, ?_⟩
      · simpa using hs
      · simpa using hb

theorem pushLoop_inc_iff (n : Nat) (bs : List UniqueInstruction)
    (dep : Bool) :
    (TraceStack.pushLoop n bs dep true).2.2 = false ↔ BadAt bs n := by
  induction n generalizing bs dep with
  | zero =>
    simp only [TraceStack.pushLoop]
    constructor
    · intro h; cases h
    · rintro ⟨i, hi, _⟩; omega
  | succ n ih =>
    cases bs with
    | nil =>
      rw [show TraceStack.pushLoop (n + 1) [] dep true =
            TraceStack.pushLoop n [] dep true from rfl, ih []]
      constructor
      · intro h; exact absurd h (badAt_nil n)
      · intro h; exact absurd h (badAt_nil (n + 1))
    | cons tos rest =>
      rw [badAt_cons]
      by_cases h : tos.in_slice = true
      · rw [pushLoop_cons_in_slice n tos rest dep true h]
        by_cases hb : badHead tos rest = true
        · simp only [hb, Bool.true_and, Bool.not_true, Bool.and_false]
          rw [pushLoop_inc_false]
          simp [h, hb]
        · have hb' : badHead tos rest = false := by simpa using hb
          simp only [hb', Bool.not_false, Bool.and_true]
          rw [ih rest]
          simp [h, hb']
      · have h' : tos.in_slice = false := by simpa using h
        rw [pushLoop_cons_not_in_slice n tos rest dep true h', ih rest]
        simp [h']

theorem pushLoop_min (n : Nat) (bs : List UniqueInstruction)
    (dep inc : Bool) :
    TraceStack.pushLoop n bs dep inc =
      TraceStack.pushLoop (min n bs.length) bs dep inc := by
  induction n generalizing bs dep inc with
  | zero => simp
  | succ n ih =>
    cases bs with
    | nil =>
      have : TraceStack.pushLoop (n + 1) [] dep inc =
          TraceStack.pushLoop n [] dep inc := rfl
      rw [this, ih []]
      simp [TraceStack.pushLoop]
    | cons tos rest =>
      have hmin : min (n + 1) (tos :: rest).length =
          (min n rest.length) + 1 := by
        simp [Nat.succ_min_succ]
      rw [hmin]
      by_cases h : tos.in_slice = true
      · rw [pushLoop_cons_in_slice n tos rest dep inc h,
            pushLoop_cons_in_slice (min n rest.length) tos rest dep inc h]
        exact ih rest true _
      · have h' : tos.in_slice = false := by simpa using h
        rw [pushLoop_cons_not_in_slice n tos rest dep inc h',
            pushLoop_cons_not_in_slice (min n rest.length) tos rest dep inc h']
        exact ih rest dep inc

/-- An in-slice `STORE_ATTR` producer on top of an otherwise empty block
stack. -/
def c6Instr : UniqueInstruction :=
  { file := "a.py", opcode := STORE_ATTR, arg := .strV "a", lineno := 1,
    code_object_id := 0, node_id := 0, offset := 0, dis_arg := some 0,
    is_jump_target := false, inSliceFlag := true }

def c6Stack : TraceStack :=
  { frameStacks := [{ code_object_id := -1, blockStacks := [[c6Instr]],
                      attributeUses := ∅, importNameInstr := none }] }

/-- C6, counterexample.  The claim says `include_use` is `false` whenever
the topmost popped producer is in-slice with opcode among `STORE_ATTR`,
`STORE_SUBSCR`, `LOAD_ATTR`, `DELETE_ATTR`, `IMPORT_FROM`.  Here the
topmost popped producer is an in-slice `STORE_ATTR`, yet the source turns
`include_use` off for the two store opcodes only when the next-lower stack
entry exists and repeats the same opcode (`stack_simulation.py`, lines
118-122); with an empty remaining stack the call returns
`include_use = true`. -/
theorem c6_counterexample :
    c6Instr.in_slice = true ∧ c6Instr.opcode = STORE_ATTR ∧
    c6Stack.update_push_operations 1 false =
      .ok ({ frameStacks := [{ code_object_id := -1, blockStacks := [[]],
                               attributeUses := ∅,
                               importNameInstr := none }] },
           true, true) := by
  refine ⟨rfl, rfl, ?_⟩
  rfl

/-- C6, amended: `update_push_operations(n_pushes, returned)` pops up to
`n_pushes` producers off the current block stack and returns
`(implicit_dep, include_use)` where `implicit_dep` is true iff some popped
producer is in-slice, or `returned` holds and the producer peeked on the
previous frame's top block stack is in-slice; and `include_use` is false
iff some popped producer is in-slice and its opcode is `LOAD_ATTR`,
`DELETE_ATTR` or `IMPORT_FROM`, or is `STORE_ATTR`/`STORE_SUBSCR` with the
next-lower block-stack entry present and of the same opcode. -/
theorem c6_update_push_characterization
    (ts : TraceStack) (curr : FrameStack) (rest : List FrameStack)
    (bs : List UniqueInstruction) (bss : List (List UniqueInstruction))
    (n : Nat) (returned : Bool) (prevTop : Option UniqueInstruction)
    (hts : ts.frameStacks = curr :: rest)
    (hbs : curr.blockStacks = bs :: bss)
    (hprev : returned = true → ∃ pf prest pb pbs, rest = pf :: prest ∧
        pf.blockStacks = pb :: pbs ∧ pb.head? = prevTop) :
    ∃ out, ts.update_push_operations n returned = .ok out ∧
      (out.2.1 = true ↔
        ((∃ u ∈ bs.take n, u.in_slice = true) ∨
         (returned = true ∧ ∃ t, prevTop = some t ∧ t.in_slice = true))) ∧
      (out.2.2 = false ↔ BadAt bs n) := by
  obtain ⟨fs⟩ := ts
  simp only at hts
  subst hts
  obtain ⟨cid, cbs, cau, cin⟩ := curr
  simp only at hbs
  subst hbs
  cases returned with
  | false =>
    have heq : TraceStack.update_push_operations
        { frameStacks := ⟨cid, bs :: bss, cau, cin⟩ :: rest } n false =
        .ok ({ frameStacks :=
                 ⟨cid, (TraceStack.pushLoop n bs false true).1 :: bss, cau,
                  cin⟩ :: rest },
             (TraceStack.pushLoop n bs false true).2.1,
             (TraceStack.pushLoop n bs false true).2.2) := rfl
    refine ⟨_, heq, ?_, ?_⟩
    · rw [pushLoop_dep]
      simp [List.any_eq_true]
    · rw [pushLoop_inc_iff]
  | true =>
    obtain ⟨pf, prest, pb, pbs, hrest, hpbs, hpeek⟩ := hprev rfl
    subst hrest
    obtain ⟨pcid, pcbs, pcau, pcin⟩ := pf
    simp only at hpbs
    subst hpbs
    cases pb with
    | nil =>
      have heq : TraceStack.update_push_operations
          { frameStacks := ⟨cid, bs :: bss, cau, cin⟩ ::
              ⟨pcid, [] :: pbs, pcau, pcin⟩ :: prest } n true =
          .ok ({ frameStacks :=
                   ⟨cid, (TraceStack.pushLoop n bs false true).1 :: bss, cau,
                    cin⟩ :: ⟨pcid, [] :: pbs, pcau, pcin⟩ :: prest },
               (TraceStack.pushLoop n bs false true).2.1,
               (TraceStack.pushLoop n bs false true).2.2) := rfl
      refine ⟨_, heq, ?_, ?_⟩
      · rw [pushLoop_dep]
        simp [List.any_eq_true, ← hpeek]
      · rw [pushLoop_inc_iff]
    | cons top ptail =>
      have heq : TraceStack.update_push_operations
          { frameStacks := ⟨cid, bs :: bss, cau, cin⟩ ::
              ⟨pcid, (top :: ptail) :: pbs, pcau, pcin⟩ :: prest } n true =
          .ok ({ frameStacks :=
                   ⟨cid, (TraceStack.pushLoop n bs top.in_slice true).1 ::
                      bss, cau, cin⟩ ::
                     ⟨pcid, (top :: ptail) :: pbs, pcau, pcin⟩ :: prest },
               (TraceStack.pushLoop n bs top.in_slice true).2.1,
               (TraceStack.pushLoop n bs top.in_slice true).2.2) := rfl
      refine ⟨_, heq, ?_, ?_⟩
      · rw [pushLoop_dep]
        cases htop : top.in_slice <;>
          simp [List.any_eq_true, ← hpeek, htop]
      · rw [pushLoop_inc_iff]

/-- C6, witness: the characterization applied to a one-producer stack
holding an in-slice `LOAD_ATTR`, popped twice (the second pop is a
no-op). -/
def c6wInstr : UniqueInstruction :=
  { file := "a.py", opcode := LOAD_ATTR, arg := .strV "b", lineno := 2,
    code_object_id := 0, node_id := 0, offset := 2, dis_arg := some 0,
    is_jump_target := false, inSliceFlag := true }

def c6wFrame : FrameStack :=
  { code_object_id := -1, blockStacks := [[c6wInstr]], attributeUses := ∅,
    importNameInstr := none }

def c6wStack : TraceStack := { frameStacks := [c6wFrame] }

theorem c6_update_push_characterization_witness :
    ∃ out, c6wStack.update_push_operations 2 false = .ok out ∧
      (out.2.1 = true ↔
        ((∃ u ∈ [c6wInstr].take 2, u.in_slice = true) ∨
         (false = true ∧ ∃ t, (none : Option UniqueInstruction) = some t ∧
            t.in_slice = true))) ∧
      (out.2.2 = false ↔ BadAt [c6wInstr] 2) :=
  c6_update_push_characterization c6wStack c6wFrame [] [c6wInstr] [] 2
    false none rfl rfl (by simp)

/-- C10: popping more producers than the block stack holds cannot fail —
each missing producer is treated as absent, so the result (state and both
flags) is the one obtained with the available producers only. -/
theorem c10_no_underflow
    (ts : TraceStack) (curr : FrameStack) (rest : List FrameStack)
    (bs : List UniqueInstruction) (bss : List (List UniqueInstruction))
    (n : Nat) (returned : Bool)
    (hts : ts.frameStacks = curr :: rest)
    (hbs : curr.blockStacks = bs :: bss)
    (hprev : returned = true → ∃ pf prest pb pbs, rest = pf :: prest ∧
        pf.blockStacks = pb :: pbs) :
    (∃ out, ts.update_push_operations n returned = .ok out) ∧
    ts.update_push_operations n returned =
      ts.update_push_operations (min n bs.length) returned := by
  obtain ⟨fs⟩ := ts
  simp only at hts
  subst hts
  obtain ⟨cid, cbs, cau, cin⟩ := curr
  simp only at hbs
  subst hbs
  cases returned with
  | false =>
    have heq : ∀ m : Nat, TraceStack.update_push_operations
        { frameStacks := ⟨cid, bs :: bss, cau, cin⟩ :: rest } m false =
        .ok ({ frameStacks :=
                 ⟨cid, (TraceStack.pushLoop m bs false true).1 :: bss, cau,
                  cin⟩ :: rest },
             (TraceStack.pushLoop m bs false true).2.1,
             (TraceStack.pushLoop m bs false true).2.2) := fun _ => rfl
    refine ⟨⟨_, heq n⟩, ?_⟩
    rw [heq n, heq (min n bs.length), pushLoop_min n bs]
  | true =>
    obtain ⟨pf, prest, pb, pbs, hrest, hpbs⟩ := hprev rfl
    subst hrest
    obtain ⟨pcid, pcbs, pcau, pcin⟩ := pf
    simp only at hpbs
    subst hpbs
    cases pb with
    | nil =>
      have heq : ∀ m : Nat, TraceStack.update_push_operations
          { frameStacks := ⟨cid, bs :: bss, cau, cin⟩ ::
              ⟨pcid, [] :: pbs, pcau, pcin⟩ :: prest } m true =
          .ok ({ frameStacks :=
                   ⟨cid, (TraceStack.pushLoop m bs false true).1 :: bss, cau,
                    cin⟩ :: ⟨pcid, [] :: pbs, pcau, pcin⟩ :: prest },
               (TraceStack.pushLoop m bs false true).2.1,
               (TraceStack.pushLoop m bs false true).2.2) := fun _ => rfl
      refine ⟨⟨_, heq n⟩, ?_⟩
      rw [heq n, heq (min n bs.length), pushLoop_min n bs]
    | cons top ptail =>
      have heq : ∀ m : Nat, TraceStack.update_push_operations
          { frameStacks := ⟨cid, bs :: bss, cau, cin⟩ ::
              ⟨pcid, (top :: ptail) :: pbs, pcau, pcin⟩ :: prest } m true =
          .ok ({ frameStacks :=
                   ⟨cid, (TraceStack.pushLoop m bs top.in_slice true).1 ::
                      bss, cau, cin⟩ ::
                     ⟨pcid, (top :: ptail) :: pbs, pcau, pcin⟩ :: prest },
               (TraceStack.pushLoop m bs top.in_slice true).2.1,
               (TraceStack.pushLoop m bs top.in_slice true).2.2) :=
        fun _ => rfl
      refine ⟨⟨_, heq n⟩, ?_⟩
      rw [heq n, heq (min n bs.length), pushLoop_min n bs]

/-- C10, witness: the freshly prepared 40x40 stack, popped five producers
deep on its (empty) current block stack. -/
theorem c10_no_underflow_witness :
    (∃ out, TraceStack.initial.update_push_operations 5 false = .ok out) ∧
    TraceStack.initial.update_push_operations 5 false =
      TraceStack.initial.update_push_operations
        (min 5 ([] : List UniqueInstruction).length) false :=
  c10_no_underflow TraceStack.initial _ _ [] _ 5 false rfl rfl (by simp)

/-! ## C7 — object-creation promotion in
`check_explicit_data_dependency` -/

def c7Base : ExecBase :=
  { file := "a.py", code_object_id := 0, node_id := 0, opcode := STORE_FAST,
    lineno := 1, offset := 0 }

def c7Instr : UniqueInstruction :=
  { file := "a.py", opcode := STORE_FAST, arg := .strV "x", lineno := 1,
    code_object_id := 0, node_id := 0, offset := 0, dis_arg := some 0,
    is_jump_target := false, inSliceFlag := false }

/-- A context whose only pending attribute key has address prefix `0x1f`. -/
def c7Ctx : SlicingContext :=
  { SlicingContext.initial with D_attributes := {"0x1f_attr"} }

/-- A `STORE_FAST` def event creating the object at address `1`
(`hex(1) = "0x1"`). -/
def c7Traced : ExecutedInstruction := .memory c7Base "x" 1 false true

/-- C7, counterexample.  The claim says exactly the keys of the form
`hex(arg_address) + "_" + name` are removed and keys with any other
address prefix are left unchanged.  The source tests
`use.startswith(hex(arg_address)) and len(use) > len(hex(arg_address))` —
without the underscore — so the key `"0x1f_attr"` (address `0x1f`) is
removed for `arg_address = 1` (`hex = "0x1"`), the result reports a
complete cover, and the name `"attr"` (the part after the FIRST
underscore, not after the claimed prefix) is returned. -/
theorem c7_counterexample :
    (pyStartsWith "0x1f_attr" ("0x1" ++ "_") = false) ∧
    check_explicit_data_dependency (fun _ => false) c7Ctx c7Instr
        (some c7Traced) =
      .ok (true, {"attr"},
           { c7Ctx with D_local := ∅, D_attributes := ∅ }) := by
  constructor
  · decide
  · decide

/-- C7, amended: when `check_explicit_data_dependency` processes a Memory
def event with `object_creation` true and non-zero `arg_address`, the keys
removed from `D_attributes` are exactly those that extend
`hex(arg_address)` as a plain string prefix by at least one character (the
underscore is not part of the tested prefix, so a key whose own hex
address merely extends `hex(arg_address)` also matches); for each removed
key the part after the key's FIRST underscore is added to the returned
`attribute_creation_uses`; the result reports a complete cover when at
least one key matched; all other keys are left unchanged. -/
theorem c7_object_creation_promotion (isM : Int → Bool)
    (ctx : SlicingContext) (ui : UniqueInstruction) (base : ExecBase)
    (argName : String) (a : Int) (mt : Bool)
    (hdef : ui.is_def = true) (ha : a ≠ 0)
    (hop : MemoryDefBranchOpcode base.opcode) :
    ∃ cover uses ctx',
      check_explicit_data_dependency isM ctx ui
          (some (.memory base argName a mt true)) =
        .ok (cover, uses, ctx') ∧
      ctx'.D_attributes =
        ctx.D_attributes.filter (fun u => ¬ promotionMatch a u) ∧
      uses = (ctx.D_attributes.filter (promotionMatch a)).image
          afterFirstUnderscore ∧
      ((∃ u ∈ ctx.D_attributes, promotionMatch a u) → cover = true) := by
  obtain ⟨c1, ctx1, hvd⟩ := variable_def_cover_ok isM ctx base argName a
    true hop
  obtain ⟨hattr, havar, -, -⟩ :=
    variable_def_cover_shape isM ctx base argName a true c1 ctx1 hvd
  unfold check_explicit_data_dependency
  rw [if_neg (show ¬¬(ui.is_def = true) from by simp [hdef])]
  simp only [bind, Except.bind, hvd]
  rw [hattr]
  repeat' split
  all_goals try (exact absurd (And.intro ha trivial) (by assumption))
  all_goals refine ⟨_, _, _, rfl, ?_, ?_, ?_⟩
  all_goals try rfl
  all_goals try (rw [Finset.filter_not])
  all_goals rintro ⟨u, hu, hp⟩
  all_goals
    first
      | (exfalso
         have hne := Finset.filter_nonempty_iff.mpr ⟨u, hu, hp⟩
         simp_all
         done)
      | simp

def c7wBase : ExecBase :=
  { file := "m.py", code_object_id := 0, node_id := 0, opcode := STORE_NAME,
    lineno := 3, offset := 4 }

def c7wInstr : UniqueInstruction :=
  { file := "m.py", opcode := STORE_NAME, arg := .strV "y", lineno := 3,
    code_object_id := 0, node_id := 0, offset := 4, dis_arg := some 1,
    is_jump_target := false, inSliceFlag := false }

def c7wCtx : SlicingContext :=
  { SlicingContext.initial with D_attributes := {"0x2_y"} }

/-- C7, witness: the promotion applied to a `STORE_NAME` def of the object
at address `2` with the pending key `"0x2_y"`. -/
theorem c7_object_creation_promotion_witness :
    ∃ cover uses ctx',
      check_explicit_data_dependency (fun _ => true) c7wCtx c7wInstr
          (some (.memory c7wBase "y" 2 false true)) =
        .ok (cover, uses, ctx') ∧
      ctx'.D_attributes =
        c7wCtx.D_attributes.filter (fun u => ¬ promotionMatch 2 u) ∧
      uses = (c7wCtx.D_attributes.filter (promotionMatch 2)).image
          afterFirstUnderscore ∧
      ((∃ u ∈ c7wCtx.D_attributes, promotionMatch 2 u) → cover = true) :=
  c7_object_creation_promotion (fun _ => true) c7wCtx c7wInstr c7wBase "y" 2
    false (by decide) (by decide) (Or.inr (Or.inr (Or.inl rfl)))

/-! ## C1 — `ControlDependenceGraph.compute` -/

theorem walkUp_eq_takeWhile (parent : Int → Option Int) :
    ∀ (fuel : Nat) (t L : Int) (path : List Int),
      walkUp parent fuel t L = some path →
      path = (ancestorChain parent fuel t).takeWhile (fun c => c ≠ L) := by
  intro fuel
  induction fuel with
  | zero =>
    intro t L path h
    simp only [walkUp] at h
    by_cases ht : t = L
    · rw [if_pos ht] at h
      injection h with h
      subst h
      simp [ancestorChain, ht]
    · rw [if_neg ht] at h
      cases h
  | succ fuel ih =>
    intro t L path h
    simp only [walkUp] at h
    by_cases ht : t = L
    · rw [if_pos ht] at h
      injection h with h
      subst h
      simp [ancestorChain, ht]
    · rw [if_neg ht] at h
      cases hp : parent t with
      | none =>
        simp only [hp] at h
        exact Option.noConfusion h
      | some p =>
        simp only [hp] at h
        cases hw : walkUp parent fuel p L with
        | none =>
          simp only [hw, Option.map_none'] at h
          exact Option.noConfusion h
        | some rest =>
          simp only [hw, Option.map_some'] at h
          injection h with h
          subst h
          simp only [ancestorChain, hp]
          rw [List.takeWhile_cons]
          simp only [ht, decide_not]
          rw [ih p L rest hw]
          simp [ht]

theorem collectCdgEdges_success (parent : Int → Option Int) (fuel : Nat) :
    ∀ (cands : List (Int × Int)) (es : List (Int × Int)),
      collectCdgEdges parent fuel cands = some es →
      ∀ c ∈ cands, ∃ L path, least_common_ancestor parent fuel c.1 c.2 =
          some L ∧ walkUp parent fuel c.2 L = some path := by
  intro cands
  induction cands with
  | nil => intro es _ c hc; cases hc
  | cons st rest ih =>
    intro es h c hc
    obtain ⟨s₀, t₀⟩ := st
    simp only [collectCdgEdges, bind, Option.bind] at h
    cases hl : least_common_ancestor parent fuel s₀ t₀ with
    | none =>
      simp only [hl] at h
      exact Option.noConfusion h
    | some L₀ =>
      simp only [hl] at h
      cases hw : walkUp parent fuel t₀ L₀ with
      | none =>
        simp only [hw] at h
        exact Option.noConfusion h
      | some p₀ =>
        simp only [hw] at h
        cases htl : collectCdgEdges parent fuel rest with
        | none =>
          simp only [htl] at h
          exact Option.noConfusion h
        | some tl =>
          rcases List.mem_cons.mp hc with rfl | hc'
          · exact ⟨L₀, p₀, hl, hw⟩
          · exact ih tl htl c hc'

theorem collectCdgEdges_mem (parent : Int → Option Int) (fuel : Nat) :
    ∀ (cands : List (Int × Int)) (es : List (Int × Int)),
      collectCdgEdges parent fuel cands = some es →
      ∀ s n, ((s, n) ∈ es ↔
        ∃ t, (s, t) ∈ cands ∧
          ∃ L, least_common_ancestor parent fuel s t = some L ∧
            ∃ path, walkUp parent fuel t L = some path ∧
              (n ∈ path ∨ (L = s ∧ n = s))) := by
  intro cands
  induction cands with
  | nil =>
    intro es h s n
    simp only [collectCdgEdges] at h
    injection h with h
    subst h
    simp
  | cons st rest ih =>
    intro es h s n
    obtain ⟨s₀, t₀⟩ := st
    simp only [collectCdgEdges, bind, Option.bind] at h
    cases hl : least_common_ancestor parent fuel s₀ t₀ with
    | none =>
      simp only [hl] at h
      exact Option.noConfusion h
    | some L₀ =>
      simp only [hl] at h
      cases hw : walkUp parent fuel t₀ L₀ with
      | none =>
        simp only [hw] at h
        exact Option.noConfusion h
      | some p₀ =>
        simp only [hw] at h
        cases htl : collectCdgEdges parent fuel rest with
        | none =>
          simp only [htl] at h
          exact Option.noConfusion h
        | some tl =>
          simp only [htl, pure, Option.some.injEq] at h
          subst h
          constructor
          · intro hmem
            rcases List.mem_append.mp hmem with hmem | hmem
            · rcases List.mem_append.mp hmem with hmem | hmem
              · rcases List.mem_map.mp hmem with ⟨c, hc, hcs⟩
                obtain ⟨rfl, rfl⟩ := (Prod.mk.injEq s₀ c s n).mp hcs
                exact ⟨t₀, List.mem_cons_self _ _, L₀, hl, p₀, hw,
                  Or.inl hc⟩
              · by_cases hls : L₀ = s₀
                · rw [if_pos hls] at hmem
                  have h' := List.mem_singleton.mp hmem
                  obtain ⟨h1, h2⟩ := (Prod.mk.injEq s n s₀ L₀).mp h'
                  subst h1
                  subst h2
                  exact ⟨t₀, List.mem_cons_self _ _, _, hl, _, hw,
                    Or.inr ⟨hls, hls⟩⟩
                · rw [if_neg hls] at hmem
                  cases hmem
            · rcases (ih tl htl s n).mp hmem with ⟨t, htm, rest'⟩
              exact ⟨t, List.mem_cons_of_mem _ htm, rest'⟩
          · rintro ⟨t, htm, L, hlca, path, hwalk, hor⟩
            rcases List.mem_cons.mp htm with heq | htm'
            · obtain ⟨rfl, rfl⟩ := (Prod.mk.injEq s t s₀ t₀).mp heq
              rw [hl] at hlca
              injection hlca with hlca
              subst hlca
              rw [hw] at hwalk
              injection hwalk with hwalk
              subst hwalk
              rcases hor with hn | ⟨hls, hns⟩
              · exact List.mem_append.mpr (Or.inl (List.mem_append.mpr
                  (Or.inl (List.mem_map.mpr ⟨n, hn, rfl⟩))))
              · refine List.mem_append.mpr (Or.inl (List.mem_append.mpr
                  (Or.inr ?_)))
                rw [if_pos hls]
                subst hns
                rw [← hls]
                exact List.mem_singleton.mpr rfl
            · exact List.mem_append.mpr (Or.inr ((ih tl htl s n).mpr
                ⟨t, htm', L, hlca, path, hwalk, hor⟩))

theorem candidates_mem (aug : PDGraph) (parent : Int → Option Int)
    (fuel : Nat) (s t : Int) :
    (s, t) ∈ aug.nodes.flatMap (fun s' =>
        (successorsOf aug s').filterMap (fun t' =>
          if s' ∈ transitive_successors parent aug.nodes fuel t' then none
          else some (s', t'))) ↔
      s ∈ aug.nodes ∧ t ∈ successorsOf aug s ∧
        s ∉ transitive_successors parent aug.nodes fuel t := by
  rw [List.mem_flatMap]
  constructor
  · rintro ⟨s', hs', hmem⟩
    rcases List.mem_filterMap.mp hmem with ⟨t', ht', hif⟩
    by_cases hc : s' ∈ transitive_successors parent aug.nodes fuel t'
    · rw [if_pos hc] at hif; cases hif
    · rw [if_neg hc] at hif
      injection hif with hif
      obtain ⟨rfl, rfl⟩ := (Prod.mk.injEq s' t' s t).mp hif
      exact ⟨hs', ht', hc⟩
  · rintro ⟨hs, ht, hns⟩
    refine ⟨s, hs, List.mem_filterMap.mpr ⟨t, ht, ?_⟩⟩
    rw [if_neg hns]

/-- C1: `ControlDependenceGraph.compute` returns a graph over the
augmented CFG's node set whose edges are exactly those of the spec's rule
(`specCdgEdge`): for each augmented-CFG edge `(s, t)` with `s` not
post-dominated by `t`, the edges `s → n` for every `n` on the PDT path
from `t` up to (and excluding) the least common ancestor `L` of `s` and
`t`, plus `s → s` when `L = s`.  (`cfg.py`/`programgraph.py`/
`dominatortree.py` are absent from the sources; the post-dominator tree
and its query operations are modelled from the spec as the parent map
`parent`.) -/
theorem c1_cdg_compute_spec (g : CFGModel) (parent : Int → Option Int)
    (ns : List Int) (es : List (Int × Int))
    (h : cdg_compute g parent = some (ns, es)) :
    ∃ aug, create_augmented_graph g = some aug ∧ ns = aug.nodes ∧
      ∀ s n, ((s, n) ∈ es ↔ specCdgEdge aug parent s n) := by
  simp only [cdg_compute, bind, Option.bind] at h
  cases haug : create_augmented_graph g with
  | none =>
    simp only [haug] at h
    exact Option.noConfusion h
  | some aug =>
    simp only [haug] at h
    cases hcol : collectCdgEdges parent (aug.nodes.length + 1)
        (aug.nodes.flatMap (fun s =>
          (successorsOf aug s).filterMap (fun t =>
            if s ∈ transitive_successors parent aug.nodes
                (aug.nodes.length + 1) t then none
            else some (s, t)))) with
    | none =>
      simp only [hcol] at h
      exact Option.noConfusion h
    | some es₀ =>
      simp only [hcol, pure, Option.some.injEq, Prod.mk.injEq] at h
      obtain ⟨rfl, rfl⟩ := h
      refine ⟨aug, rfl, rfl, ?_⟩
      intro s n
      rw [collectCdgEdges_mem parent (aug.nodes.length + 1) _ es₀ hcol s n]
      unfold specCdgEdge
      constructor
      · rintro ⟨t, htm, L, hlca, path, hwalk, hor⟩
        rcases (candidates_mem aug parent (aug.nodes.length + 1) s t).mp
          htm with ⟨hs, ht, hns⟩
        refine ⟨t, hs, ht, hns, L, hlca, ?_⟩
        rcases hor with hn | hLs
        · left
          rw [← walkUp_eq_takeWhile parent (aug.nodes.length + 1) t L path
            hwalk]
          exact hn
        · exact Or.inr hLs
      · rintro ⟨t, hs, ht, hns, L, hlca, hor⟩
        have htm := (candidates_mem aug parent (aug.nodes.length + 1)
          s t).mpr ⟨hs, ht, hns⟩
        obtain ⟨L', path, hlca', hwalk⟩ := collectCdgEdges_success parent
          (aug.nodes.length + 1) _ es₀ hcol (s, t) htm
        simp only at hlca' hwalk
        rw [hlca] at hlca'
        injection hlca' with hlca'
        subst hlca'
        refine ⟨t, htm, L, hlca, path, hwalk, ?_⟩
        rcases hor with hn | hLs
        · left
          rw [walkUp_eq_takeWhile parent (aug.nodes.length + 1) t L path
            hwalk]
          exact hn
        · exact Or.inr hLs

/-- A diamond CFG: entry `0` branches to `1` and `2`, joins at the single
exit `2`. -/
def c1wG : CFGModel :=
  { nodes := [0, 1, 2], edges := [(0, 1), (0, 2), (1, 2)],
    entry_node := some 0, exit_nodes := [2] }

/-- Its post-dominator tree: `2` immediately post-dominates `0` and `1`;
the synthetic start node is the root. -/
def c1wParent : Int → Option Int := fun n =>
  if n = 0 then some 2
  else if n = 1 then some 2
  else if n = 2 then some START_NODE_INDEX
  else none

def c1wNodes : List Int := [0, 1, 2, START_NODE_INDEX]

def c1wEdges : List (Int × Int) :=
  [(0, 1), (START_NODE_INDEX, 0), (START_NODE_INDEX, 2),
   (START_NODE_INDEX, START_NODE_INDEX), (START_NODE_INDEX, 2),
   (START_NODE_INDEX, START_NODE_INDEX)]

/-- C1, witness: the compute/spec correspondence evaluated on the diamond
CFG, projected at the self-loop edge of the synthetic start node. -/
theorem c1_cdg_compute_spec_witness :
    cdg_compute c1wG c1wParent = some (c1wNodes, c1wEdges) ∧
    ∃ aug, create_augmented_graph c1wG = some aug ∧ c1wNodes = aug.nodes ∧
      ((START_NODE_INDEX, START_NODE_INDEX) ∈ c1wEdges ↔
        specCdgEdge aug c1wParent START_NODE_INDEX START_NODE_INDEX) := by
  refine ⟨by decide, ?_⟩
  obtain ⟨aug, h1, h2, h3⟩ :=
    c1_cdg_compute_spec c1wG c1wParent c1wNodes c1wEdges (by decide)
  exact ⟨aug, h1, h2, h3 _ _⟩

/-! ## C2/C3 — behaviour of `slice` on normal return -/

/-- A criterion instruction whose opcode (`LOAD_CONST`) has a static stack
effect and is untraced: the smallest instruction the initialisation
handles without errors. -/
def okCritInstr : UniqueInstruction :=
  { file := "t.py", opcode := LOAD_CONST, arg := .noneV, lineno := 1,
    code_object_id := 0, node_id := 0, offset := 0, dis_arg := none,
    is_jump_target := false, inSliceFlag := false }

def okCrit : SlicingCriterion :=
  { unique_instr := okCritInstr, occurrence := 1, global_variables := [] }

/-- An environment whose reconstructor reports the flow exhausted at once:
`slice` returns after the initialisation. -/
def okEnv : SliceEnv :=
  { executed_instructions := []
    test_id := "test"
    get_last_instruction := fun _ =>
      .ok { file := "t.py", last_instr := none, code_object_id := 0,
            basic_block_id := 0, offset := 0 }
    locate_unique := fun _ _ _ =>
      some { opcode := LOAD_CONST, arg := .noneV, lineno := 1 }
    dis_info := fun _ _ _ => some (none, false)
    isModuleCO := fun _ => false
    cdgSucc := fun _ _ => []
    cdgPred := fun _ _ => []
    codeMeta := fun _ => none
    chainFuel := 1
    clock := fun _ => 0
    max_slicing_time := 10 }

def okRes : DynamicSlice :=
  { origin_name := "test"
    sliced_instructions := [okCritInstr.set_in_slice] }

/-- C2: for every invocation of `DynamicSlicer.slice` that returns
normally, the slicing criterion's unique instruction is a member of the
returned slice: the returned list contains an element identical to the
criterion instruction under the set identity used throughout
(`bytecode.Instr` equality key AND the `__hash__` tuple agree), which in
particular makes it a member under Python's `in`.  The criterion is
appended to `DS` (marked in-slice) during initialisation, `DS` only ever
grows, and the final de-duplication keeps one representative of each
identity class. -/
theorem c2_criterion_in_slice (env : SliceEnv)
    (criterion : SlicingCriterion) (tp : Int) (fuel : Nat)
    (res : DynamicSlice) (h : slice env criterion tp fuel = .ok res) :
    ∃ u ∈ res.sliced_instructions,
      UniqueInstruction.setIdent u criterion.unique_instr = true := by
  obtain ⟨st0, hloop, hds⟩ := slice_ok_elim env criterion tp fuel res h
  have hmem : criterion.unique_instr.set_in_slice ∈ st0.context.DS := by
    rw [hds]
    exact List.mem_singleton_self _
  obtain ⟨u, hu, hset⟩ := slice_loop_class env _ fuel st0 res hloop _ hmem
  rw [setIdent_set_in_slice] at hset
  exact ⟨u, hu, hset⟩

/-- C2, witness: a one-step run whose returned slice is exactly the marked
criterion instruction. -/
theorem c2_criterion_in_slice_witness :
    slice okEnv okCrit 0 1 = .ok okRes ∧
      ∃ u ∈ okRes.sliced_instructions,
        UniqueInstruction.setIdent u okCrit.unique_instr = true :=
  ⟨rfl, c2_criterion_in_slice okEnv okCrit 0 1 okRes rfl⟩

/-- C3: whenever `DynamicSlicer.slice` returns, the returned
`DynamicSlice` carries the configured origin name and its instruction
list equals the final accumulator `DS` reversed with duplicates removed,
keeping the first occurrence in the reversed order: it is a sublist of
`DS.reverse` (reverse order of inclusion), no two of its members are
identified by the de-duplicating set, and every accumulator entry is
represented by an identical member. -/
theorem c3_slice_egress (env : SliceEnv) (criterion : SlicingCriterion)
    (tp : Int) (fuel : Nat) (res : DynamicSlice)
    (h : slice env criterion tp fuel = .ok res) :
    res.origin_name = env.test_id ∧
    ∃ DS : List UniqueInstruction,
      res.sliced_instructions = pyDedup DS.reverse ∧
      res.sliced_instructions.Sublist DS.reverse ∧
      res.sliced_instructions.Pairwise
        (fun a b => UniqueInstruction.setIdent a b = false) ∧
      ∀ x ∈ DS, ∃ u ∈ res.sliced_instructions,
        UniqueInstruction.setIdent u x = true := by
  obtain ⟨st0, hloop, -⟩ := slice_ok_elim env criterion tp fuel res h
  obtain ⟨horigin, DS, hshape⟩ := slice_loop_shape env _ fuel st0 res hloop
  refine ⟨horigin, DS, hshape, ?_, ?_, ?_⟩
  · rw [hshape]
    exact pyDedupGo_sublist [] DS.reverse
  · rw [hshape]
    exact pyDedupGo_pairwise [] DS.reverse
  · intro x hx
    rw [hshape]
    exact pyDedupGo_preserves_class [] DS.reverse x
      ⟨x, List.mem_reverse.mpr hx, UniqueInstruction.setIdent_refl x⟩ rfl

/-- C3, witness: the egress shape evaluated on the one-step run. -/
theorem c3_slice_egress_witness :
    slice okEnv okCrit 0 2 = .ok okRes ∧
      (okRes.origin_name = okEnv.test_id ∧
       ∃ DS : List UniqueInstruction,
         okRes.sliced_instructions = pyDedup DS.reverse ∧
         okRes.sliced_instructions.Sublist DS.reverse ∧
         okRes.sliced_instructions.Pairwise
           (fun a b => UniqueInstruction.setIdent a b = false) ∧
         ∀ x ∈ DS, ∃ u ∈ okRes.sliced_instructions,
           UniqueInstruction.setIdent u x = true) :=
  ⟨rfl, c3_slice_egress okEnv okCrit 0 2 okRes rfl⟩

/-! ## C5 — uncertain stack effects -/

/-- A criterion whose own opcode has an uncertain stack effect. -/
def c5CritInstr : UniqueInstruction :=
  { okCritInstr with opcode := FORMAT_VALUE }

def c5Crit : SlicingCriterion :=
  { unique_instr := c5CritInstr, occurrence := 1, global_variables := [] }

/-- C5, counterexample.  The claim says `DynamicSlicer.slice` never lets
`UncertainStackEffectException` propagate to its caller.  The
initialisation's stack-effect query for the criterion's own opcode
(`dynamic_slicer.py`, line 120) is NOT guarded by the
`try ... except UncertainStackEffectException` of lines 190-195, so a
criterion on a `FORMAT_VALUE` instruction makes `slice` itself raise the
exception. -/
theorem c5_counterexample :
    slice okEnv c5Crit 0 1 = .error .uncertainStackEffect := rfl

/-- C5, amended: `StackEffect.stack_effect` fails with
`UncertainStackEffectException` exactly on the five opcodes
`WITH_CLEANUP_START`, `WITH_CLEANUP_FINISH`, `SETUP_ASYNC_WITH`,
`END_ASYNC_FOR`, `FORMAT_VALUE`, for any argument and jump flag; the
guarded per-iteration query of the slicing loop never lets the exception
through — it reacts by keeping the previous pops/pushes and disabling
stack simulation — and simulation stays off until the stack housekeeping
pushes an artificial frame at the next `call`/`import_start` frame
boundary, where it is re-enabled (and is left unchanged away from frame
boundaries).  Only the loop's query is guarded: the initialisation query
(see the counterexample) propagates the exception. -/
theorem c5_uncertain_recovery (op : Nat) (arg : Option Int) (jump : Bool)
    (p q : Int) (sim : Bool) (ts0 : TraceStack) (av nu : Finset String)
    (ls : LastInstrState) (co : Int) :
    (stack_effect op arg jump = .error .uncertainStackEffect ↔
      op = WITH_CLEANUP_START ∨ op = WITH_CLEANUP_FINISH ∨
      op = SETUP_ASYNC_WITH ∨ op = END_ASYNC_FOR ∨ op = FORMAT_VALUE) ∧
    (effect_query p q sim op arg jump ≠ .error .uncertainStackEffect) ∧
    (stack_effect op arg jump = .error .uncertainStackEffect →
      effect_query p q sim op arg jump = .ok (p, q, false)) ∧
    (∀ pibc ts' av' ibc' sim',
      stack_housekeeping ts0 av nu ls co sim =
        .ok (pibc, ts', av', ibc', sim') →
      ((ls.call = true ∨ ls.import_start = true) → sim = false →
        sim' = true) ∧
      (ls.call = false → ls.import_start = false → sim' = sim)) := by
  refine ⟨?_, effect_query_uncertain p q sim op arg jump, ?_, ?_⟩
  · rw [stack_effect_uncertain_iff]
    simp [UNCERTAIN]
  · intro hu
    unfold effect_query
    rw [hu]
  · intro pibc ts' av' ibc' sim' hh
    exact exceptSpec_ok (stack_housekeeping_spec ts0 av nu ls co sim) hh

/-- C5, witness: the uncertainty and its in-loop recovery at
`FORMAT_VALUE`. -/
theorem c5_uncertain_recovery_witness :
    stack_effect FORMAT_VALUE none false = .error .uncertainStackEffect ∧
    effect_query 2 3 true FORMAT_VALUE none false = .ok (2, 3, false) := by
  have h := c5_uncertain_recovery FORMAT_VALUE none false 2 3 true
    TraceStack.initial ∅ ∅
    { file := "t.py", last_instr := none, code_object_id := 0,
      basic_block_id := 0, offset := 0 } 0
  have h1 : stack_effect FORMAT_VALUE none false =
      .error .uncertainStackEffect :=
    h.1.mpr (Or.inr (Or.inr (Or.inr (Or.inr rfl))))
  exact ⟨h1, h.2.2.1 h1⟩

/-! ## C9 — the timeout check -/

/-- An environment whose wall clock is far past the deadline already at
the first backward step, and whose disassembly lookup fails inside that
step. -/
def c9Env : SliceEnv :=
  { okEnv with
      get_last_instruction := fun _ =>
        .ok { file := "t.py",
              last_instr :=
                some { opcode := LOAD_CONST, arg := .noneV, lineno := 1 },
              code_object_id := 0, basic_block_id := 0, offset := 0 }
      dis_info := fun _ _ _ => none
      clock := fun n => if n = 0 then 0 else 100
      max_slicing_time := 1 }

/-- C9, counterexample.  The claim says the deadline check is performed at
the top of each backward step, before the other work of that step.  Here
the wall clock is already 99 seconds past the deadline when the first
backward step runs, yet `slice` reports the step's disassembly failure
(`InstructionNotFoundException`) instead of `SlicingTimeout`: the check of
`dynamic_slicer.py` lines 259-260 runs only at the END of a step, after
all of its work. -/
theorem c9_counterexample :
    slice c9Env okCrit 0 3 = .error .instructionNotFound ∧
      c9Env.clock 1 > c9Env.clock 0 + c9Env.max_slicing_time :=
  ⟨rfl, by decide⟩

/-- C9, amended: `DynamicSlicer.slice` checks the wall clock against the
deadline at the END of each backward step, after all of the step's work:
a step that continues has its end-of-step clock within the deadline and
consumes exactly one clock reading; `SlicingTimeout` is raised exactly
from that end-of-step check, so it implies the end-of-step clock exceeded
the deadline; and the flow-exhausted return path performs no check at
all — its result is independent of the deadline. -/
theorem c9_timeout_at_step_end (env : SliceEnv) (dl : Int)
    (st : SliceState) :
    (∀ st', slice_step env dl st = .ok (.inl st') →
      env.clock st.clockIdx ≤ dl ∧ st'.clockIdx = st.clockIdx + 1) ∧
    (slice_step env dl st = .error .slicingTimeout →
      env.clock st.clockIdx > dl) ∧
    (∀ res dl', slice_step env dl st = .ok (.inr res) →
      slice_step env dl' st = .ok (.inr res)) := by
  refine ⟨?_, slice_step_timeout env dl st, ?_⟩
  · intro st' h
    obtain ⟨-, h2, h3⟩ := slice_step_inl_spec env dl st st' h
    exact ⟨h2, h3⟩
  · intro res dl' h
    exact (slice_step_inr_spec env dl st res h).2 dl'

/-- An environment and state whose step completes all its work and then
times out at the end-of-step check. -/
def env9w : SliceEnv :=
  { okEnv with
      get_last_instruction := fun _ =>
        .ok { file := "t.py",
              last_instr :=
                some { opcode := LOAD_CONST, arg := .noneV, lineno := 1 },
              code_object_id := 0, basic_block_id := 0, offset := 0 }
      clock := fun _ => 100 }

def st9w : SliceState :=
  { file := "t.py",
    curr_instr := { opcode := LOAD_CONST, arg := .noneV, lineno := 1 },
    trace_position := 0, offset := 0, code_object_id := 0,
    basic_block_id := 0, stack_simulation := true,
    trace_stack := TraceStack.initial, context := SlicingContext.initial,
    code_object_dependent := false, new_attribute_object_uses := ∅,
    import_back_call := none, pops := 0, pushes := 1, clockIdx := 1 }

/-- The loop state right after the `okEnv` initialisation. -/
def okSt : SliceState :=
  { st9w with
      context :=
        { SlicingContext.initial with DS := [okCritInstr.set_in_slice] } }

/-- C9, witness: a concrete step that times out after doing its work, and
a concrete flow-exhausted step whose return ignores an already-expired
deadline. -/
theorem c9_timeout_at_step_end_witness :
    env9w.clock st9w.clockIdx > 0 ∧
      slice_step okEnv (-5) okSt = .ok (.inr okRes) :=
  ⟨(c9_timeout_at_step_end env9w 0 st9w).2.1 rfl,
   (c9_timeout_at_step_end okEnv 7 okSt).2.2 okRes (-5) rfl⟩

end PyChecco
